import Mathlib

/-!
Verification development for the openshrimp task-execution agent.

Shallow embedding of the agent control loop (src/agent.py), the human-input
registry (src/human_input.py) and the two ask_human plugin variants
(plugins/human_input/tool.py and src/plugins/human_input/tool.py).

Python dictionaries that are only ever read and written pointwise are
modelled as functions; the one dictionary whose length and sorted key list
matter (the per-task ask counter) is modelled as an insertion-ordered
association list, mirroring CPython dict semantics.
-/

set_option maxRecDepth 10000

namespace OpenShrimp

/-! ### Python string helpers -/

/-- Is the first list a prefix of the second (character lists). -/
def subAt : List Char → List Char → Bool
  | [], _ => true
  | _ :: _, [] => false
  | c :: cs, d :: ds => (c = d) && subAt cs ds

/-- Substring containment on character lists (Python `needle in hay`). -/
def hasSub : List Char → List Char → Bool
  | [], needle => subAt needle []
  | h :: t, needle => subAt needle (h :: t) || hasSub t needle

/-- Python `needle in hay` for strings. -/
def strContains (hay needle : String) : Bool :=
  hasSub hay.toList needle.toList

/-- Python `s.startswith(pre)`. -/
def strStartsWith (s pre : String) : Bool :=
  subAt pre.toList s.toList

/-- Helper for Python `f"{n:,}"`: insert a comma after every third
character of the reversed digit list. -/
def commaRev : List Char → List Char
  | a :: b :: c :: d :: rest => a :: b :: c :: ',' :: commaRev (d :: rest)
  | l => l

/-- Python `f"{n:,}"`: decimal digits grouped by thousands with commas. -/
def commaFormat (n : Nat) : String :=
  String.mk (commaRev (toString n).toList.reverse).reverse

/-- Python `s.strip()`: drop whitespace from both ends. -/
def pyStrip (s : String) : String :=
  String.mk ((s.toList.dropWhile Char.isWhitespace).reverse.dropWhile Char.isWhitespace).reverse

/-- Python `s.lower()`. -/
def pyLower (s : String) : String :=
  String.mk (s.toList.map Char.toLower)

/-- Python `s.upper()`. -/
def pyUpper (s : String) : String :=
  String.mk (s.toList.map Char.toUpper)

/-! ### agent.py constants -/

def LLM_TIMEOUT : Nat := 120
def DEFAULT_MAX_TOOL_ROUNDS : Nat := 10
def DEEP_RESEARCH_MAX_TOOL_ROUNDS : Nat := 25

def TOOL_LOOP_WARN_THRESHOLD : Nat := 3
def TOOL_LOOP_BLOCK_THRESHOLD : Nat := 5
def TOOL_NAME_WARN_THRESHOLD : Nat := 4
def TOOL_NAME_BLOCK_THRESHOLD : Nat := 7
def TOOL_NAME_WARN_OVERRIDES : List (String × Nat) := [("browser", 10)]
def TOOL_NAME_BLOCK_OVERRIDES : List (String × Nat) := [("browser", 20)]
def TOOL_RESULT_MAX_CHARS : Nat := 15000

/-- `TOOL_NAME_WARN_OVERRIDES.get(name, TOOL_NAME_WARN_THRESHOLD)`. -/
def nameWarnThreshold (name : String) : Nat :=
  (TOOL_NAME_WARN_OVERRIDES.lookup name).getD TOOL_NAME_WARN_THRESHOLD

/-- `TOOL_NAME_BLOCK_OVERRIDES.get(name, TOOL_NAME_BLOCK_THRESHOLD)`. -/
def nameBlockThreshold (name : String) : Nat :=
  (TOOL_NAME_BLOCK_OVERRIDES.lookup name).getD TOOL_NAME_BLOCK_THRESHOLD

/-- `EFFORT_ROUNDS` with env defaults: quick 5, normal 10, deep 25. -/
def EFFORT_ROUNDS (effort : String) : Option Nat :=
  if effort = "quick" then some 5
  else if effort = "normal" then some DEFAULT_MAX_TOOL_ROUNDS
  else if effort = "deep" then some DEEP_RESEARCH_MAX_TOOL_ROUNDS
  else none

/-- `EFFORT_ROUNDS.get(effort, DEFAULT_MAX_TOOL_ROUNDS)` in `run_agent`. -/
def effortRounds (effort : String) : Nat :=
  (EFFORT_ROUNDS effort).getD DEFAULT_MAX_TOOL_ROUNDS

def DEEP_RESEARCH_KEYWORDS : List String :=
  ["deep research", "long thinking", "thorough research", "comprehensive research",
   "exhaustive", "deep dive", "extensive research", "as many sources", "every relevant"]

/-- `_is_deep_research`: the lowered, stripped query contains a deep keyword. -/
def is_deep_research (query : String) : Bool :=
  DEEP_RESEARCH_KEYWORDS.any (fun kw => strContains (pyLower (pyStrip query)) kw)

/-- `_tool_call_hash`: sha256 of `f"{name}:{json.dumps(args, sort_keys=True)}"`.
We model the hash by its payload string (sha256 treated as injective);
`argsKey` stands for the canonical sorted-keys JSON encoding of the args. -/
def tool_call_hash (name argsKey : String) : String :=
  name ++ ":" ++ argsKey

/-- `_truncate_observation`: cap at `maxChars` characters and append an
explicit overflow marker when cut. -/
def truncate_observation (maxChars : Nat) (text : String) : String :=
  if text.length ≤ maxChars then text
  else text.take maxChars ++ "\n\n[... truncated " ++
    commaFormat (text.length - maxChars) ++ " chars]"

/-! ### Budget & loop governor (`_tool_node`) -/

/-- One tool call request emitted by the model. `argsKey` is the canonical
JSON encoding of the argument mapping (sorted keys). -/
structure ToolCall where
  name : String
  argsKey : String
  callId : String
deriving DecidableEq, Inhabited

/-- The two thread-local per-run counter dictionaries, modelled as maps. -/
structure GovState where
  toolCallCounts : String → Nat
  toolNameCounts : String → Nat

def initGov : GovState := ⟨fun _ => 0, fun _ => 0⟩

/-- Result of processing one tool call request in `_tool_node`:
the observation text (before truncation), whether the tool was actually
invoked, and whether the governor blocked the call. -/
structure ToolOutcome where
  observation : String
  executed : Bool
  blocked : Bool
deriving DecidableEq, Inhabited

def blockIdenticalMsg (name : String) (count : Nat) : String :=
  "BLOCKED: You have called " ++ name ++ " with identical arguments " ++
  toString count ++ " times. This looks like an infinite loop. Try a different approach or tool."

def blockNameMsg (name : String) (nameCount : Nat) : String :=
  "BLOCKED: You have called " ++ name ++ " " ++ toString nameCount ++
  " times this session. You are stuck in a loop. Stop using this tool and either: " ++
  "(1) use a DIFFERENT tool, (2) provide your final answer, or " ++
  "(3) mark the task as failed explaining what you could not do."

def warnIdenticalMsg (name : String) (count : Nat) : String :=
  "\n\n⚠️ WARNING: You have called " ++ name ++ " with identical arguments " ++
  toString count ++ " times. Vary your approach or move on."

def warnNameMsg (name : String) (nameCount : Nat) : String :=
  "\n\n⚠️ WARNING: You have called " ++ name ++ " " ++ toString nameCount ++
  " times this session. Consider whether you are making progress. If not, try a different " ++
  "approach or wrap up with what you have."

def bumpCount (f : String → Nat) (k : String) : String → Nat :=
  fun x => if x = k then f k + 1 else f x

/-- One iteration of the loop body of `_tool_node` for a single tool call:
unknown-tool handling, increment-then-check loop detection (identical-args
block, per-name block, identical-args warn, per-name warn), and execution.
`tools` is the set of registered tool names; `exec` is the oracle giving the
genuine observation of invoking the tool (a raised exception is folded into
the oracle output as the `Tool error: ...` string, as in the source). -/
def processToolCall (tools : List String) (exec : ToolCall → String)
    (gov : GovState) (tc : ToolCall) : GovState × ToolOutcome :=
  if ¬ tools.contains tc.name then
    (gov, ⟨"Unknown tool: " ++ tc.name, false, false⟩)
  else
    let h := tool_call_hash tc.name tc.argsKey
    let toolCallCounts := bumpCount gov.toolCallCounts h
    let count := toolCallCounts h
    let toolNameCounts := bumpCount gov.toolNameCounts tc.name
    let nameCount := toolNameCounts tc.name
    let gov' : GovState := ⟨toolCallCounts, toolNameCounts⟩
    if TOOL_LOOP_BLOCK_THRESHOLD ≤ count then
      (gov', ⟨blockIdenticalMsg tc.name count, false, true⟩)
    else if nameBlockThreshold tc.name ≤ nameCount then
      (gov', ⟨blockNameMsg tc.name nameCount, false, true⟩)
    else
      let obs := exec tc
      let obs :=
        if TOOL_LOOP_WARN_THRESHOLD ≤ count then obs ++ warnIdenticalMsg tc.name count
        else if nameWarnThreshold tc.name ≤ nameCount then obs ++ warnNameMsg tc.name nameCount
        else obs
      (gov', ⟨obs, true, false⟩)

/-- Fold the governor state over a list of calls (outcomes discarded). -/
def runGov (tools : List String) (exec : ToolCall → String)
    (gov : GovState) (calls : List ToolCall) : GovState :=
  calls.foldl (fun g tc => (processToolCall tools exec g tc).1) gov

/-- The outcome of each call in a batch, threading the governor state. -/
def runOutcomes (tools : List String) (exec : ToolCall → String) :
    GovState → List ToolCall → List ToolOutcome
  | _, [] => []
  | gov, tc :: rest =>
    let p := processToolCall tools exec gov tc
    p.2 :: runOutcomes tools exec p.1 rest

/-- Number of calls among the first `i+1` whose hash equals that of call `i`
(so call `i` itself is included: this is the `count` the source reads after
its increment). -/
def identCount (calls : List ToolCall) (i : Nat) : Nat :=
  ((calls.take (i + 1)).filter
    (fun d => tool_call_hash d.name d.argsKey =
      tool_call_hash (calls.getD i default).name (calls.getD i default).argsKey)).length

/-- Number of calls among the first `i+1` whose tool name equals that of
call `i` (the `name_count` the source reads after its increment). -/
def nameCountAt (calls : List ToolCall) (i : Nat) : Nat :=
  ((calls.take (i + 1)).filter (fun d => d.name = (calls.getD i default).name)).length

/-! ### Model selection and transient error failover (`_create_llm`, `_llm_call`) -/

/-- `EFFORT_MODELS` with env defaults. -/
def EFFORT_MODELS (effort : String) : Option String :=
  if effort = "quick" then some "openai/gpt-oss-120b"
  else if effort = "normal" then some "deepseek/deepseek-v3.2"
  else if effort = "deep" then some "z-ai/glm-5"
  else none

/-- `EFFORT_MODELS_FALLBACK` with env defaults. -/
def EFFORT_MODELS_FALLBACK (effort : String) : Option String :=
  if effort = "quick" ∨ effort = "normal" ∨ effort = "deep"
  then some "deepseek/deepseek-v3.2" else none

/-- Model resolution in `_create_llm` when no explicit model is passed:
`EFFORT_MODELS.get(effort, "").strip() or OPENROUTER_MODEL default`. -/
def createLLMModel (effort : String) : String :=
  let m := pyStrip ((EFFORT_MODELS effort).getD "")
  if m = "" then "deepseek/deepseek-v3.2" else m

/-- The observable data of a Python exception used by
`_is_transient_llm_error`: whether it is an instance of
`TimeoutError`/`ConnectionError`/`OSError`, its type name, and `str(exc)`. -/
structure LLMExc where
  connectionClass : Bool
  typeName : String
  message : String
deriving DecidableEq, Inhabited

/-- `_is_transient_llm_error`. -/
def is_transient_llm_error (e : LLMExc) : Bool :=
  e.connectionClass ||
  ["ReadTimeout", "ConnectTimeout", "RemoteProtocolError", "ConnectError"].contains e.typeName ||
  ["429", "500", "502", "503", "504"].any (fun c => strContains e.message c) ||
  ["timeout", "rate limit", "connection reset", "model not available",
   "no endpoints", "overloaded"].any (fun kw => strContains (pyLower e.message) kw)

/-- The `try/except` failover in `_llm_call`. `invoke` is the oracle for one
model invocation (model name to reply content or exception). Returns the
final outcome together with the list of models invoked, in order. -/
def llm_invoke_with_fallback (invoke : String → Except LLMExc String)
    (effort : String) : Except LLMExc String × List String :=
  match invoke (createLLMModel effort) with
  | .ok r => (.ok r, [createLLMModel effort])
  | .error e =>
    match EFFORT_MODELS_FALLBACK effort with
    | some fb =>
      if fb ≠ "" ∧ fb ≠ createLLMModel effort ∧ is_transient_llm_error e = true then
        (invoke fb, [createLLMModel effort, fb])
      else (.error e, [createLLMModel effort])
    | none => (.error e, [createLLMModel effort])

/-! ### Messages, budget line and the orchestration loop -/

/-- The message sequence of a Run: human query, system directive, assistant
replies (with their tool call requests) and tool results. -/
inductive Msg where
  | human (content : String)
  | system (content : String)
  | ai (content : String) (toolCalls : List ToolCall)
  | tool (content : String) (callId : String)
deriving DecidableEq, Inhabited

/-- `getattr(msg, "tool_calls", None) or []`. -/
def toolCallsOf : Msg → List ToolCall
  | .ai _ tcs => tcs
  | _ => []

def msgContent : Msg → String
  | .human c => c
  | .system c => c
  | .ai c _ => c
  | .tool c _ => c

/-- `_count_tool_rounds`: messages carrying a nonempty `tool_calls`. -/
def count_tool_rounds (messages : List Msg) : Nat :=
  (messages.filter (fun m => ¬ toolCallsOf m = [])).length

/-- The budget line appended to the system directive in `_llm_call`
(`remaining = max(0, max_rounds - used_rounds)`; the wrap-up branch is
tested before the zero-remaining branch). -/
def budget_line (max_rounds used_rounds : Nat) : String :=
  let remaining := max_rounds - used_rounds
  let base := "\n\nTool budget: " ++ toString remaining ++ "/" ++
    toString max_rounds ++ " calls remaining."
  if remaining ≤ 2 ∧ 0 < used_rounds then
    base ++ " You are running low. Wrap up and provide your final answer now."
  else if remaining = 0 then
    base ++ " You have NO calls left. Provide your final answer immediately."
  else base

/-- The system directive of one LLM call step: base instructions plus effort
guidance (`basePrompt`, whose prompt-engineering content no claim depends
on) followed by the budget line computed from the current messages. -/
def llmSystemContent (basePrompt : String) (max_rounds : Nat)
    (messages : List Msg) : String :=
  basePrompt ++ budget_line max_rounds (count_tool_rounds messages)

/-- `_tool_node` batch processing of the tool calls of the last message:
each observation is truncated and appended as a tool message, threading the
thread-local governor state. (The best-effort memory auto-archival and the
progress callback of the source do not alter the message sequence and are
omitted from the state.) -/
def toolNodeBatch (tools : List String) (exec : ToolCall → String) :
    GovState → List ToolCall → GovState × List Msg
  | gov, [] => (gov, [])
  | gov, tc :: rest =>
    let p := processToolCall tools exec gov tc
    let q := toolNodeBatch tools exec p.1 rest
    (q.1, Msg.tool (truncate_observation TOOL_RESULT_MAX_CHARS p.2.observation) tc.callId :: q.2)

/-- `_recursion_limit`: one initial LLM call, `max_tool_rounds` tool/LLM
pairs, one final call. -/
def recursion_limit (max_tool_rounds : Nat) : Nat :=
  2 + max_tool_rounds * 2

/-- The alternating nodes of the compiled LangGraph. -/
inductive Node where
  | llmCall
  | toolNode
deriving DecidableEq

/-- The orchestration loop: alternate `_llm_call` and `_tool_node` until the
reply carries no tool calls, each node execution consuming one unit of the
recursion limit; exhausting the limit raises `GraphRecursionError`, modelled
as `.error` carrying the messages accumulated so far (as captured by the
`stream` loop of `run_agent`). -/
def runLoop (basePrompt : String) (llm : List Msg → Msg) (tools : List String)
    (exec : ToolCall → String) (maxRounds : Nat) :
    Nat → Node → GovState → List Msg → Except (List Msg) (List Msg)
  | 0, _, _, msgs => .error msgs
  | fuel + 1, .llmCall, gov, msgs =>
    let reply := llm (Msg.system (llmSystemContent basePrompt maxRounds msgs) :: msgs)
    let msgs' := msgs ++ [reply]
    if toolCallsOf reply = [] then .ok msgs'
    else runLoop basePrompt llm tools exec maxRounds fuel .toolNode gov msgs'
  | fuel + 1, .toolNode, gov, msgs =>
    let calls := toolCallsOf (msgs.getLastD default)
    let p := toolNodeBatch tools exec gov calls
    runLoop basePrompt llm tools exec maxRounds fuel .llmCall p.1 (msgs ++ p.2)

/-- `_fallback_summary`: tool-result bodies capped to 3000 characters each,
concatenated, and handed to one additional best-effort LLM call
(`summarize`, the `_create_llm(effort="normal")` invocation). -/
def fallback_summary (summarize : List Msg → Msg) (query : String)
    (messages : List Msg) : String :=
  let tool_contents := messages.filterMap (fun m =>
    match m with
    | .tool c _ => if c = "" then none else some (c.take 3000)
    | _ => none)
  if tool_contents = [] then
    "Research hit the tool-call limit before gathering enough data to answer."
  else
    let gathered := String.intercalate "\n\n---\n\n" tool_contents
    let summary_prompt :=
      "You were researching the following query but hit the tool-call limit.\n" ++
      "Query: " ++ query ++ "\n\n" ++
      "Here is the information gathered so far:\n\n" ++ gathered ++ "\n\n" ++
      "Based only on this information, give the best answer you can. " ++
      "If you don\x27t have enough to answer fully, say so and share what you found."
    let result := msgContent (summarize [Msg.human summary_prompt])
    "⚠️ Hit tool-call limit; here\x27s a summary of what was found:\n\n" ++ result

/-- `run_agent`: effort auto-upgrade, round budget from the effort tier,
streaming the graph under the recursion limit; a `GraphRecursionError` is
caught and answered by `_fallback_summary` over the accumulated messages
(any other exception would propagate, but the embedded oracles are total).
Returns the final assistant content otherwise. -/
def run_agent (basePrompt : String) (llm : List Msg → Msg)
    (summarize : List Msg → Msg) (tools : List String)
    (exec : ToolCall → String) (query : String) (effort : String) : String :=
  match runLoop basePrompt llm tools exec
      (effortRounds (if effort = "normal" ∧ is_deep_research query = true then "deep" else effort))
      (recursion_limit (effortRounds
        (if effort = "normal" ∧ is_deep_research query = true then "deep" else effort)))
      .llmCall initGov [Msg.human query] with
  | .ok msgs => msgContent (msgs.getLastD default)
  | .error msgs => fallback_summary summarize query msgs

/-! ### Human-input registry (src/human_input.py) -/

/-- One outstanding ask-human request. `eventSet` models
`threading.Event`; `answer` is the mutable single-slot list filled by
`resolve`. (`created_at` is only read by `get_stale`, which no claim
touches, and is omitted.) -/
structure PendingQuestion where
  eventSet : Bool
  answer : List String
  chatId : Nat
  question : String
  taskId : Option Nat
deriving DecidableEq, Inhabited

/-- The module state of human_input.py. Python object identity is modelled
by a heap of references: `heap` maps a reference to the object it holds and
`pending` is the `_pending` dict mapping a chat id to the reference of its
current PendingQuestion. A caller of `register` keeps its returned
reference even after the dict entry is replaced or removed. -/
structure Registry where
  heap : Nat → Option PendingQuestion
  nextRef : Nat
  pending : Nat → Option Nat

def emptyRegistry : Registry := ⟨fun _ => none, 0, fun _ => none⟩

/-- Dereference (total, with the Inhabited default for a dangling ref). -/
def getPQ (reg : Registry) (r : Nat) : PendingQuestion :=
  (reg.heap r).getD default

/-- `register`: create a fresh PendingQuestion and make it the pending one
for `chat` (silently replacing, without signalling, any previous one). -/
def registerPQ (reg : Registry) (chat : Nat) (question : String)
    (taskId : Option Nat) : Registry × Nat :=
  let r := reg.nextRef
  let pq : PendingQuestion := ⟨false, [], chat, question, taskId⟩
  (⟨fun x => if x = r then some pq else reg.heap x, r + 1,
    fun c => if c = chat then some r else reg.pending c⟩, r)

/-- `resolve`: append the answer to the current PendingQuestion for `chat`
and set its event; `false` if nothing is pending. -/
def resolvePQ (reg : Registry) (chat : Nat) (answer : String) :
    Registry × Bool :=
  match reg.pending chat with
  | none => (reg, false)
  | some r =>
    (⟨fun x => if x = r then
        (reg.heap x).map (fun pq =>
          { pq with answer := pq.answer ++ [answer], eventSet := true })
      else reg.heap x, reg.nextRef, reg.pending⟩, true)

/-- `cleanup`: `_pending.pop(chat_id, None)`. -/
def cleanupPQ (reg : Registry) (chat : Nat) : Registry :=
  ⟨reg.heap, reg.nextRef, fun c => if c = chat then none else reg.pending c⟩

/-! ### The ungated ask_human tool (plugins/human_input/tool.py) -/

/-- The persisted task fields ask_human touches. -/
structure TaskRec where
  status : String
  assignee : Option Nat
  pendingQuestion : Option String
deriving DecidableEq, Inhabited

/-- The world the ask_human tool acts on: the in-memory registry, the task
store (a partial map, standing for the DB behind `task_service`), and the
log of chat messages sent to the user. -/
structure World where
  reg : Registry
  tasks : Nat → Option TaskRec
  chatLog : List (Nat × String)

/-- `task_service.update_task(id, status, assignee_id, pending_question)`;
an update of a missing task raises, which ask_human swallows, so it is a
no-op here. -/
def update_task (w : World) (tid : Nat) (status : String)
    (assignee : Option Nat) (pq : Option String) : World :=
  { w with tasks := fun x => if x = tid then
      (w.tasks tid).map (fun _ => ⟨status, assignee, pq⟩)
    else w.tasks x }

/-- First half of `ask_human` (after the active-session guard): mark the
task waiting-for-human and assign it to the human, register the
PendingQuestion, and send the question to the chat. Returns the reference
the blocked caller keeps. -/
def askHumanStart (w : World) (chat : Nat) (question : String)
    (taskId : Option Nat) (humanUid : Option Nat) : World × Nat :=
  let w := match taskId with
    | some t => if t ≠ 0 then update_task w t "waiting_for_human" humanUid (some question) else w
    | none => w
  let p := registerPQ w.reg chat question taskId
  ({ w with reg := p.1, chatLog := w.chatLog ++ [(chat, "❓ " ++ question)] }, p.2)

/-- Second half of `ask_human`, run when `event.wait` returns (wake or
timeout): restore the task to in-progress assigned to the agent, deregister
the chat, and return the answer text or the no-answer sentinel. -/
def askHumanFinish (w : World) (chat : Nat) (taskId : Option Nat)
    (agentUid : Option Nat) (r : Nat) : World × String :=
  let pq := getPQ w.reg r
  let answered := pq.eventSet
  let w := match taskId with
    | some t => if t ≠ 0 then update_task w t "in_progress" agentUid none else w
    | none => w
  let w := { w with reg := cleanupPQ w.reg chat }
  if answered = false ∨ pq.answer = [] then
    (w, "(no answer — user did not reply within the timeout)")
  else
    (w, pq.answer.headD "")

/-- External actions that can happen while the caller is blocked on
`event.wait`: a reply handler calling `resolve`. -/
inductive ExtEvent where
  | resolveEv (chat : Nat) (answer : String)
deriving DecidableEq

def applyEvents (w : World) (events : List ExtEvent) : World :=
  events.foldl (fun w e =>
    match e with
    | .resolveEv chat ans => { w with reg := (resolvePQ w.reg chat ans).1 }) w

/-- The whole ungated `ask_human` call: the active-session guard, the
registration half, the externally driven wait window, and the finishing
half. `sessionOk` models the truthiness of chat id, bot app and loop. -/
def ask_human (w : World) (sessionOk : Bool) (chat : Nat) (question : String)
    (taskId : Option Nat) (humanUid agentUid : Option Nat)
    (events : List ExtEvent) : World × String :=
  if sessionOk = false then
    (w, "[human_input] No active Telegram session — cannot ask question.")
  else
    let p := askHumanStart w chat question taskId humanUid
    let w := applyEvents p.1 events
    askHumanFinish w chat taskId agentUid p.2

/-! ### The gated ask_human tool (src/plugins/human_input/tool.py) -/

def MAX_ASKS_PER_TASK : Nat := 2
def MAX_ASK_COUNT_ENTRIES : Nat := 500

/-- `_ask_count` lookup (`dict.get(task_id, 0)`); the dict is an
insertion-ordered association list with unique keys. -/
def getAskCount (l : List (Nat × Nat)) (t : Nat) : Nat :=
  (l.lookup t).getD 0

/-- `dict[k] = v`: update in place if present, else append. -/
def setAskCount : List (Nat × Nat) → Nat → Nat → List (Nat × Nat)
  | [], k, v => [(k, v)]
  | (k', v') :: rest, k, v =>
    if k' = k then (k, v) :: rest else (k', v') :: setAskCount rest k v

/-- `_increment_ask_count`. -/
def incrementAskCount (l : List (Nat × Nat)) (t : Nat) : List (Nat × Nat) :=
  setAskCount l t (getAskCount l t + 1)

/-- Insertion sort used to model Python `sorted` over the key list. -/
def sortedInsertNat (x : Nat) : List Nat → List Nat
  | [] => [x]
  | y :: ys => if x ≤ y then x :: y :: ys else y :: sortedInsertNat x ys

def sortNat : List Nat → List Nat
  | [] => []
  | x :: xs => sortedInsertNat x (sortNat xs)

/-- `_cleanup_ask_count`: when the dict holds more than 500 entries, delete
the lower half of the sorted task ids. -/
def cleanup_ask_count (l : List (Nat × Nat)) : List (Nat × Nat) :=
  if MAX_ASK_COUNT_ENTRIES < l.length then
    let sorted_ids := sortNat (l.map (fun p => p.1))
    let toDrop := sorted_ids.take (sorted_ids.length / 2)
    l.filter (fun p => ¬ toDrop.contains p.1)
  else l

/-- What the evaluator LLM call can yield, as observed by
`_should_ask_user`: no API key configured, a raised exception, or a reply
whose content (after `or ""`) is the given text. -/
inductive EvalOutcome where
  | noKey
  | err
  | reply (text : String)
deriving DecidableEq

/-- `_should_ask_user`: ALLOW/REJECT parsing with fail-open on missing key,
exception, or unexpected format. -/
def should_ask_user (ev : EvalOutcome) : Bool × String :=
  match ev with
  | .noKey => (true, "")
  | .err => (true, "")
  | .reply raw =>
    let text := pyStrip raw
    if strStartsWith (pyUpper text) "ALLOW" then (true, "")
    else if strStartsWith (pyUpper text) "REJECT" then
      let suggestion := pyStrip (String.mk ((text.drop 6).toList.dropWhile (fun c => c = ':' ∨ c = ' ')))
      (false, if suggestion = "" then "Proceed with your best judgment." else suggestion)
    else (true, "")

/-- The world of the gated tool: the module-level `_ask_count` dict, the
shared registry/tasks/chat of the ungated variant, the log of questions
actually sent to the user (tagged with the owning task, newest first), and
a ghost flag recording whether any `_cleanup_ask_count` call ever evicted
entries. The two logs are ghost instrumentation: the source only performs
the sends. -/
structure GWorld where
  askCounts : List (Nat × Nat)
  reg : Registry
  tasks : Nat → Option TaskRec
  chatLog : List (Nat × String)
  sentQuestions : List (Option Nat × String)
  evictionOccurred : Bool

def emptyGWorld : GWorld :=
  ⟨[], emptyRegistry, fun _ => none, [], [], false⟩

def capMsg : String :=
  "(Question not sent — maximum of " ++ toString MAX_ASKS_PER_TASK ++
  " questions per task reached. Proceed with your best judgment based on available information.)"

def rejectMsg (suggestion : String) : String :=
  "(Question not sent to user — make this assumption instead: " ++ suggestion ++ ")"

/-- The per-task cap test of the gated tool:
`task_id is not None and _get_ask_count(task_id) >= MAX_ASKS_PER_TASK`. -/
def capCheck (askCounts : List (Nat × Nat)) (taskId : Option Nat) : Bool :=
  match taskId with
  | some t => decide (MAX_ASKS_PER_TASK ≤ getAskCount askCounts t)
  | none => false

/-- The gated `ask_human`: counter eviction, active-session guard, per-task
hard cap, evaluator gate, counter increment, then the same
mark-waiting/register/send/wait/restore/cleanup sequence as the ungated
tool. `ev` is the evaluator oracle outcome for this question; `events` are
the external resolves arriving during the wait. -/
def askHumanGated (w : GWorld) (sessionOk : Bool) (chat : Nat)
    (question : String) (taskId : Option Nat) (humanUid agentUid : Option Nat)
    (ev : EvalOutcome) (events : List ExtEvent) : GWorld × String :=
  let evicts := MAX_ASK_COUNT_ENTRIES < w.askCounts.length
  let w := { w with askCounts := cleanup_ask_count w.askCounts,
                    evictionOccurred := w.evictionOccurred || evicts }
  if sessionOk = false then
    (w, "[human_input] No active Telegram session — cannot ask question.")
  else if capCheck w.askCounts taskId = true then
    (w, capMsg)
  else
    let gate := should_ask_user ev
    if gate.1 = false then
      (w, rejectMsg gate.2)
    else
      let w := match taskId with
        | some t => { w with askCounts := incrementAskCount w.askCounts t }
        | none => w
      let w := match taskId with
        | some t => if t ≠ 0 then
            { w with tasks := (update_task ⟨w.reg, w.tasks, w.chatLog⟩ t
                "waiting_for_human" humanUid (some question)).tasks }
          else w
        | none => w
      let p := registerPQ w.reg chat question taskId
      let r := p.2
      let w := { w with reg := p.1,
                        chatLog := (chat, "❓ " ++ question) :: w.chatLog,
                        sentQuestions := (taskId, question) :: w.sentQuestions }
      let w := events.foldl (fun w e =>
        match e with
        | .resolveEv c ans => { w with reg := (resolvePQ w.reg c ans).1 }) w
      let pq := getPQ w.reg r
      let answered := pq.eventSet
      let w := match taskId with
        | some t => if t ≠ 0 then
            { w with tasks := (update_task ⟨w.reg, w.tasks, w.chatLog⟩ t
                "in_progress" agentUid none).tasks }
          else w
        | none => w
      let w := { w with reg := cleanupPQ w.reg chat }
      if answered = false ∨ pq.answer = [] then
        (w, "(no answer — user did not reply within the timeout)")
      else
        (w, pq.answer.headD "")

/-- One inbound ask event for a trace of gated ask_human calls (session
active, no uids, timeout path). -/
structure AskEvent where
  chat : Nat
  question : String
  taskId : Option Nat
  ev : EvalOutcome

def runAsks (w : GWorld) (evs : List AskEvent) : GWorld :=
  evs.foldl (fun w e =>
    (askHumanGated w true e.chat e.question e.taskId none none e.ev []).1) w

/-! ### Concrete traces used by witnesses and counterexamples -/

/-- One ask by a fresh task (active session, evaluator short-circuited by a
missing API key). -/
def fillerEvent (t : Nat) : AskEvent := ⟨t, "q", some t, .noKey⟩

/-- `k` asks by the fresh tasks `j+2, j+3, …, j+k+1`. -/
def fillerEvents (j k : Nat) : List AskEvent :=
  (List.range k).map (fun i => fillerEvent (j + i + 2))

/-- A trace of gated ask_human calls: task 1 asks twice (reaching the cap),
500 further tasks ask once each (growing `_ask_count` to 501 entries), then
task 1 asks again (this last call first evicts the lower half of the
counter table, task 1 included). -/
def c9Trace : List AskEvent :=
  [⟨1, "q", some 1, .noKey⟩, ⟨1, "q", some 1, .noKey⟩] ++
  (fillerEvents 0 500 ++ [⟨1, "q", some 1, .noKey⟩])

/-- The `_ask_count` table after task 1 asked twice and tasks `2..j+1`
asked once each. -/
def closedForm (j : Nat) : List (Nat × Nat) :=
  (1, 2) :: (List.range j).map (fun i => (i + 2, 1))

/-- A governor run: six distinct-argument calls to one tool, then three
identical calls. -/
def c1Calls : List ToolCall :=
  [⟨"search", "a1", "i1"⟩, ⟨"search", "a2", "i2"⟩, ⟨"search", "a3", "i3"⟩,
   ⟨"search", "a4", "i4"⟩, ⟨"search", "a5", "i5"⟩, ⟨"search", "a6", "i6"⟩,
   ⟨"search", "K", "i7"⟩, ⟨"search", "K", "i8"⟩, ⟨"search", "K", "i9"⟩]

/-! ## Theorems -/

/-! ### Helper lemmas -/

theorem budget_line_wrap (max_rounds used_rounds : Nat)
    (h1 : max_rounds - used_rounds ≤ 2) (h2 : 0 < used_rounds) :
    budget_line max_rounds used_rounds =
      "\n\nTool budget: " ++ toString (max_rounds - used_rounds) ++ "/" ++
      toString max_rounds ++
      " calls remaining. You are running low. Wrap up and provide your final answer now." := by
  unfold budget_line
  rw [if_pos ⟨h1, h2⟩]
  simp [String.append_assoc]

theorem budget_line_zero (max_rounds used_rounds : Nat)
    (h1 : max_rounds - used_rounds = 0) (h2 : used_rounds = 0) :
    budget_line max_rounds used_rounds =
      "\n\nTool budget: " ++ toString (max_rounds - used_rounds) ++ "/" ++
      toString max_rounds ++
      " calls remaining. You have NO calls left. Provide your final answer immediately." := by
  unfold budget_line
  rw [if_neg (by omega), if_pos h1]
  simp [String.append_assoc]

/-! ### C3 -/

/-- C3 counterexample: in a Run with 10 rounds all used, the remaining
budget is zero yet the budget line carries the wrap-up instruction, not the
answer-immediately instruction the claim requires. -/
theorem c3_counterexample :
    count_tool_rounds (List.replicate 10 (Msg.ai "x" [⟨"t", "a", "i"⟩])) = 10 ∧
    10 - count_tool_rounds (List.replicate 10 (Msg.ai "x" [⟨"t", "a", "i"⟩])) = 0 ∧
    strContains
      (budget_line 10 (count_tool_rounds (List.replicate 10 (Msg.ai "x" [⟨"t", "a", "i"⟩]))))
      "Provide your final answer immediately" = false ∧
    strContains
      (budget_line 10 (count_tool_rounds (List.replicate 10 (Msg.ai "x" [⟨"t", "a", "i"⟩]))))
      "Wrap up and provide your final answer now" = true := by
  decide

/-- C3 (amended): the wrap-up branch takes priority. With used rounds
counted from the assistant messages carrying tool calls, the budget line
instructs wrap-up whenever at most 2 rounds remain and at least one round
was used (including at zero remaining), and instructs answering immediately
only when zero rounds remain and no round was used. -/
theorem c3_budget_line (max_rounds : Nat) (msgs : List Msg) :
    (max_rounds - count_tool_rounds msgs ≤ 2 → 0 < count_tool_rounds msgs →
      budget_line max_rounds (count_tool_rounds msgs) =
        "\n\nTool budget: " ++ toString (max_rounds - count_tool_rounds msgs) ++ "/" ++
        toString max_rounds ++
        " calls remaining. You are running low. Wrap up and provide your final answer now.")
    ∧ (max_rounds - count_tool_rounds msgs = 0 → count_tool_rounds msgs = 0 →
      budget_line max_rounds (count_tool_rounds msgs) =
        "\n\nTool budget: " ++ toString (max_rounds - count_tool_rounds msgs) ++ "/" ++
        toString max_rounds ++
        " calls remaining. You have NO calls left. Provide your final answer immediately.") := by
  exact ⟨budget_line_wrap max_rounds (count_tool_rounds msgs),
         budget_line_zero max_rounds (count_tool_rounds msgs)⟩

/-- C3 witness: both amended branches at concrete inputs. -/
theorem c3_budget_line_witness :
    budget_line 10 (count_tool_rounds (List.replicate 9 (Msg.ai "x" [⟨"t", "a", "i"⟩]))) =
      "\n\nTool budget: " ++ toString 1 ++ "/" ++ toString 10 ++
      " calls remaining. You are running low. Wrap up and provide your final answer now." ∧
    budget_line 0 (count_tool_rounds ([] : List Msg)) =
      "\n\nTool budget: " ++ toString 0 ++ "/" ++ toString 0 ++
      " calls remaining. You have NO calls left. Provide your final answer immediately." := by
  constructor
  · have h := (c3_budget_line 10 (List.replicate 9 (Msg.ai "x" [⟨"t", "a", "i"⟩]))).1
      (by decide) (by decide)
    rw [h]
    decide
  · have h := (c3_budget_line 0 ([] : List Msg)).2 (by decide) (by decide)
    rw [h]
    decide

/-! ### C5 -/

/-- C5: in the LLM call step, a primary-model failure classified transient
with a distinct nonempty fallback configured for the tier is retried exactly
once on the fallback model; a non-transient failure, an identical fallback,
an empty fallback, or an unconfigured tier propagates the original
exception with no fallback attempt; at most two model invocations ever
occur. -/
theorem c5_llm_fallback (invoke : String → Except LLMExc String)
    (effort : String) (e : LLMExc)
    (hp : invoke (createLLMModel effort) = .error e) :
    (∀ fb, EFFORT_MODELS_FALLBACK effort = some fb → fb ≠ "" →
      fb ≠ createLLMModel effort → is_transient_llm_error e = true →
      llm_invoke_with_fallback invoke effort = (invoke fb, [createLLMModel effort, fb]))
    ∧ (∀ fb, EFFORT_MODELS_FALLBACK effort = some fb →
      (fb = "" ∨ fb = createLLMModel effort ∨ is_transient_llm_error e = false) →
      llm_invoke_with_fallback invoke effort = (.error e, [createLLMModel effort]))
    ∧ (EFFORT_MODELS_FALLBACK effort = none →
      llm_invoke_with_fallback invoke effort = (.error e, [createLLMModel effort]))
    ∧ (llm_invoke_with_fallback invoke effort).2.length ≤ 2 := by
  refine ⟨?_, ?_, ?_, ?_⟩
  · intro fb hfb hne hdist htr
    simp only [llm_invoke_with_fallback, hp, hfb]
    rw [if_pos]
    exact ⟨hne, hdist, htr⟩
  · intro fb hfb hcase
    simp only [llm_invoke_with_fallback, hp, hfb]
    rw [if_neg]
    rintro ⟨h1, h2, h3⟩
    rcases hcase with h | h | h
    · exact h1 h
    · exact h2 h
    · rw [h] at h3; cases h3
  · intro hfb
    simp only [llm_invoke_with_fallback, hp, hfb]
  · simp only [llm_invoke_with_fallback, hp]
    cases EFFORT_MODELS_FALLBACK effort with
    | none => simp
    | some fb =>
      simp only []
      split <;> simp

/-- C5 witness: a 429 error on the deep tier's primary model falls back
once to the distinct configured fallback; a non-transient error on the
normal tier (whose fallback equals its primary) propagates. -/
theorem c5_llm_fallback_witness :
    llm_invoke_with_fallback
      (fun m => if m = "z-ai/glm-5"
        then Except.error ⟨false, "Exception", "Error code: 429 - rate limited"⟩
        else Except.ok "answer") "deep" =
      (Except.ok "answer", ["z-ai/glm-5", "deepseek/deepseek-v3.2"]) ∧
    llm_invoke_with_fallback
      (fun _ => Except.error ⟨false, "ValueError", "bad request"⟩) "normal" =
      (Except.error ⟨false, "ValueError", "bad request"⟩, ["deepseek/deepseek-v3.2"]) := by
  constructor
  · have h := (c5_llm_fallback
      (fun m => if m = "z-ai/glm-5"
        then Except.error ⟨false, "Exception", "Error code: 429 - rate limited"⟩
        else Except.ok "answer") "deep"
      ⟨false, "Exception", "Error code: 429 - rate limited"⟩ (by rfl)).1
      "deepseek/deepseek-v3.2" (by rfl) (by decide) (by decide) (by decide)
    rw [h]
    rfl
  · have h := ((c5_llm_fallback
      (fun _ => Except.error ⟨false, "ValueError", "bad request"⟩) "normal"
      ⟨false, "ValueError", "bad request"⟩ (by rfl)).2.1
      "deepseek/deepseek-v3.2" (by rfl) (by right; left; decide))
    rw [h]
    have hm : createLLMModel "normal" = "deepseek/deepseek-v3.2" := by decide
    rw [hm]

/-! ### C6 -/

/-- C6: an ask_human call in an active session returns the resolved answer
when `resolve` arrives during the wait, and the no-answer sentinel when
nothing arrives; in both cases (the embedded function is total, so neither
path raises) the task is restored to in-progress assigned to the agent and
the PendingQuestion is deregistered before returning. -/
theorem c6_ask_human_round_trip (w : World) (chat : Nat) (q A : String)
    (t : Nat) (humanUid agentUid : Option Nat)
    (ht : t ≠ 0) (htask : (w.tasks t).isSome = true) :
    ((ask_human w true chat q (some t) humanUid agentUid [.resolveEv chat A]).2 = A
      ∧ (ask_human w true chat q (some t) humanUid agentUid [.resolveEv chat A]).1.tasks t
          = some ⟨"in_progress", agentUid, none⟩
      ∧ (ask_human w true chat q (some t) humanUid agentUid [.resolveEv chat A]).1.reg.pending chat
          = none)
    ∧ ((ask_human w true chat q (some t) humanUid agentUid []).2
          = "(no answer — user did not reply within the timeout)"
      ∧ (ask_human w true chat q (some t) humanUid agentUid []).1.tasks t
          = some ⟨"in_progress", agentUid, none⟩
      ∧ (ask_human w true chat q (some t) humanUid agentUid []).1.reg.pending chat
          = none) := by
  obtain ⟨rec, hrec⟩ := Option.isSome_iff_exists.mp htask
  refine ⟨⟨?_, ?_, ?_⟩, ⟨?_, ?_, ?_⟩⟩ <;>
    simp [ask_human, askHumanStart, askHumanFinish, applyEvents, registerPQ,
      resolvePQ, cleanupPQ, update_task, getPQ, ht, hrec]

/-- C6 witness: a concrete session with task 7 present. -/
theorem c6_ask_human_round_trip_witness :
    (ask_human
      ⟨emptyRegistry, fun x => if x = 7 then some ⟨"in_progress", some 2, none⟩ else none, []⟩
      true 1 "Which option?" (some 7) (some 9) (some 2)
      [.resolveEv 1 "the second one"]).2 = "the second one" ∧
    (ask_human
      ⟨emptyRegistry, fun x => if x = 7 then some ⟨"in_progress", some 2, none⟩ else none, []⟩
      true 1 "Which option?" (some 7) (some 9) (some 2) []).2 =
      "(no answer — user did not reply within the timeout)" := by
  have h := c6_ask_human_round_trip
    ⟨emptyRegistry, fun x => if x = 7 then some ⟨"in_progress", some 2, none⟩ else none, []⟩
    1 "Which option?" "the second one" 7 (some 9) (some 2) (by decide) (by decide)
  exact ⟨h.1.1, h.2.1⟩

/-! ### C7 -/

/-- C7 counterexample: two registrations for chat 1, the first never
resolved; after the first caller times out and runs its cleanup, a
subsequent resolve returns false and the second registration is never
signalled — contradicting the claim that the first caller's timeout and
cleanup must not affect the second registration, which must still be
resolvable afterwards. -/
theorem c7_counterexample :
    (resolvePQ
      (askHumanFinish
        ⟨(registerPQ (registerPQ emptyRegistry 1 "Q1" none).1 1 "Q2" none).1,
         fun _ => none, []⟩ 1 none none (registerPQ emptyRegistry 1 "Q1" none).2).1.reg
      1 "A").2 = false ∧
    (getPQ
      (resolvePQ
        (askHumanFinish
          ⟨(registerPQ (registerPQ emptyRegistry 1 "Q1" none).1 1 "Q2" none).1,
           fun _ => none, []⟩ 1 none none (registerPQ emptyRegistry 1 "Q1" none).2).1.reg
        1 "A").1
      (registerPQ (registerPQ emptyRegistry 1 "Q1" none).1 1 "Q2" none).2).eventSet
      = false := by
  decide

/-- C7 (amended): when a second registration supersedes a first unresolved
one for the same session, a resolve issued while the second is still
indexed resolves the second and never signals the first; the first caller
then times out independently and returns the sentinel, but its cleanup
removes the session's registry entry, after which a resolve returns false
(the second is no longer resolvable). -/
theorem c7_supersession (w : World) (chat : Nat) (q1 q2 A B : String) :
    (resolvePQ (registerPQ (registerPQ w.reg chat q1 none).1 chat q2 none).1 chat A).2 = true
    ∧ getPQ (resolvePQ (registerPQ (registerPQ w.reg chat q1 none).1 chat q2 none).1 chat A).1
        (registerPQ (registerPQ w.reg chat q1 none).1 chat q2 none).2
        = ⟨true, [A], chat, q2, none⟩
    ∧ getPQ (resolvePQ (registerPQ (registerPQ w.reg chat q1 none).1 chat q2 none).1 chat A).1
        (registerPQ w.reg chat q1 none).2
        = ⟨false, [], chat, q1, none⟩
    ∧ (askHumanFinish
        ⟨(resolvePQ (registerPQ (registerPQ w.reg chat q1 none).1 chat q2 none).1 chat A).1,
         w.tasks, w.chatLog⟩ chat none none (registerPQ w.reg chat q1 none).2).2
        = "(no answer — user did not reply within the timeout)"
    ∧ (resolvePQ
        (askHumanFinish
          ⟨(resolvePQ (registerPQ (registerPQ w.reg chat q1 none).1 chat q2 none).1 chat A).1,
           w.tasks, w.chatLog⟩ chat none none (registerPQ w.reg chat q1 none).2).1.reg
        chat B).2 = false := by
  have hne : w.reg.nextRef ≠ w.reg.nextRef + 1 := by omega
  refine ⟨?_, ?_, ?_, ?_, ?_⟩ <;>
    simp [registerPQ, resolvePQ, askHumanFinish, cleanupPQ, update_task, getPQ, hne]

/-! ### C8 -/

/-- C8 counterexample: a second resolve arriving before cleanup appends a
second string, so a resolved PendingQuestion's answer slot does not hold
exactly one string. -/
theorem c8_counterexample :
    (resolvePQ (registerPQ emptyRegistry 1 "Q" none).1 1 "a").2 = true ∧
    (resolvePQ (resolvePQ (registerPQ emptyRegistry 1 "Q" none).1 1 "a").1 1 "b").2 = true ∧
    (getPQ (resolvePQ (resolvePQ (registerPQ emptyRegistry 1 "Q" none).1 1 "a").1 1 "b").1
      (registerPQ emptyRegistry 1 "Q" none).2).eventSet = true ∧
    ¬ ((getPQ (resolvePQ (resolvePQ (registerPQ emptyRegistry 1 "Q" none).1 1 "a").1 1 "b").1
      (registerPQ emptyRegistry 1 "Q" none).2).answer.length = 1) ∧
    (getPQ (resolvePQ (resolvePQ (registerPQ emptyRegistry 1 "Q" none).1 1 "a").1 1 "b").1
      (registerPQ emptyRegistry 1 "Q" none).2).answer = ["a", "b"] := by
  decide

/-- C8 (amended): resolving a fresh registration stores exactly one string
and sets its event; each further resolve before cleanup appends one string,
leaving the first answer (the one the waiting caller returns) in slot 0;
and a resolve issued after cleanup for that session is a no-op that returns
false, stores nothing and wakes no thread. -/
theorem c8_resolve_semantics (reg : Registry) (chat : Nat) (q A B : String)
    (task : Option Nat) :
    ((resolvePQ (registerPQ reg chat q task).1 chat A).2 = true
      ∧ getPQ (resolvePQ (registerPQ reg chat q task).1 chat A).1
          (registerPQ reg chat q task).2 = ⟨true, [A], chat, q, task⟩)
    ∧ (∀ r pq, reg.pending chat = some r → reg.heap r = some pq →
        (resolvePQ reg chat B).2 = true
        ∧ getPQ (resolvePQ reg chat B).1 r =
            { pq with answer := pq.answer ++ [B], eventSet := true })
    ∧ resolvePQ (cleanupPQ reg chat) chat B = (cleanupPQ reg chat, false) := by
  refine ⟨⟨?_, ?_⟩, ?_, ?_⟩
  · simp [registerPQ, resolvePQ]
  · simp [registerPQ, resolvePQ, getPQ]
  · intro r pq hr hpq
    simp [resolvePQ, hr, getPQ, hpq]
  · simp [resolvePQ, cleanupPQ]

/-- C8 witness: the amended semantics at a concrete registry. -/
theorem c8_resolve_semantics_witness :
    (resolvePQ (registerPQ emptyRegistry 1 "Q" none).1 1 "first").2 = true ∧
    getPQ (resolvePQ (registerPQ emptyRegistry 1 "Q" none).1 1 "first").1 0
      = ⟨true, ["first"], 1, "Q", none⟩ ∧
    getPQ (resolvePQ (registerPQ emptyRegistry 1 "Q" none).1 1 "second").1 0
      = ⟨true, ["second"], 1, "Q", none⟩ ∧
    resolvePQ (cleanupPQ (registerPQ emptyRegistry 1 "Q" none).1 1) 1 "late"
      = (cleanupPQ (registerPQ emptyRegistry 1 "Q" none).1 1, false) := by
  have h := c8_resolve_semantics emptyRegistry 1 "Q" "first" "second" none
  refine ⟨h.1.1, h.1.2, ?_,
    (c8_resolve_semantics (registerPQ emptyRegistry 1 "Q" none).1 1 "Q2" "x" "late" none).2.2⟩
  have h2 := (c8_resolve_semantics (registerPQ emptyRegistry 1 "Q" none).1 1 "Q" "x" "second"
    none).2.1 0 ⟨false, [], 1, "Q", none⟩ (by decide) (by decide)
  exact h2.2

/-! ### C10 -/

/-- The wait-window fold of the gated tool only touches the registry. -/
theorem gatedEventsFold_sentQuestions (events : List ExtEvent) (w : GWorld) :
    (events.foldl (fun w e =>
      match e with
      | .resolveEv c ans => { w with reg := (resolvePQ w.reg c ans).1 }) w).sentQuestions
    = w.sentQuestions := by
  induction events generalizing w with
  | nil => rfl
  | cons e rest ih => cases e with | resolveEv c a => exact ih _

/-- C10: below the per-task cap, the evaluator gate runs first; a REJECT
verdict returns the not-sent message carrying the evaluator's suggestion
without touching the registry, the chat log, the sent-question log or the
task store; a missing API key, an evaluator exception, or a reply in an
unexpected format fails open; and an allowed question proceeds to be
sent. -/
theorem c10_evaluator_gate (w : GWorld) (chat : Nat) (q : String)
    (taskId : Option Nat) (hu au : Option Nat) (ev : EvalOutcome)
    (events : List ExtEvent)
    (hcap : ∀ t, taskId = some t →
      getAskCount (cleanup_ask_count w.askCounts) t < MAX_ASKS_PER_TASK) :
    ((should_ask_user ev).1 = false →
      (askHumanGated w true chat q taskId hu au ev events).2 = rejectMsg (should_ask_user ev).2
      ∧ (askHumanGated w true chat q taskId hu au ev events).1.reg = w.reg
      ∧ (askHumanGated w true chat q taskId hu au ev events).1.chatLog = w.chatLog
      ∧ (askHumanGated w true chat q taskId hu au ev events).1.sentQuestions = w.sentQuestions
      ∧ (askHumanGated w true chat q taskId hu au ev events).1.tasks = w.tasks)
    ∧ should_ask_user .noKey = (true, "")
    ∧ should_ask_user .err = (true, "")
    ∧ (∀ s, strStartsWith (pyUpper (pyStrip s)) "ALLOW" = false →
        strStartsWith (pyUpper (pyStrip s)) "REJECT" = false →
        should_ask_user (.reply s) = (true, ""))
    ∧ ((should_ask_user ev).1 = true →
        (askHumanGated w true chat q taskId hu au ev events).1.sentQuestions
          = (taskId, q) :: w.sentQuestions) := by
  have hcap' : capCheck (cleanup_ask_count w.askCounts) taskId = false := by
    rcases htid : taskId with _ | t
    · rfl
    · simpa [capCheck] using Nat.not_le.mpr (hcap t htid)
  refine ⟨?_, rfl, rfl, ?_, ?_⟩
  · intro hgate
    refine ⟨?_, ?_, ?_, ?_, ?_⟩ <;>
      simp [askHumanGated, hcap', hgate]
  · intro s h1 h2
    simp [should_ask_user, h1, h2]
  · intro hgate
    cases taskId with
    | none =>
      simp [askHumanGated, hcap', hgate]
      rw [gatedEventsFold_sentQuestions]
      split <;> rfl
    | some t =>
      simp [askHumanGated, hcap', hgate]
      by_cases ht : t = 0 <;>
        simp [ht, gatedEventsFold_sentQuestions] <;>
        split <;> rfl

/-- C10 witness: a rejected question at a concrete state, and a fail-open
outcome. -/
theorem c10_evaluator_gate_witness :
    (askHumanGated emptyGWorld true 1 "Which DB should I use?" (some 1) none none
      (.reply "REJECT: assume defaults") []).2
      = "(Question not sent to user — make this assumption instead: assume defaults)" ∧
    should_ask_user .noKey = (true, "") := by
  have h := c10_evaluator_gate emptyGWorld 1 "Which DB should I use?" (some 1) none none
    (.reply "REJECT: assume defaults") []
    (by intro t ht; cases ht; decide)
  refine ⟨?_, h.2.1⟩
  rw [(h.1 (by decide)).1]
  decide

/-! ### Governor lemmas (C1, C2) -/

theorem processToolCall_fst (tools : List String) (exec : ToolCall → String)
    (gov : GovState) (tc : ToolCall) :
    (processToolCall tools exec gov tc).1 =
      if tools.contains tc.name = true then
        ⟨bumpCount gov.toolCallCounts (tool_call_hash tc.name tc.argsKey),
         bumpCount gov.toolNameCounts tc.name⟩
      else gov := by
  by_cases h : tools.contains tc.name = true
  · rw [if_pos h]
    unfold processToolCall
    rw [if_neg (not_not_intro h)]
    dsimp only
    split
    · rfl
    · split <;> rfl
  · rw [if_neg h]
    unfold processToolCall
    rw [if_pos h]

/-- The decision `_tool_node` takes for a registered tool, in terms of the
counter values it reads after its increments. -/
theorem processToolCall_snd (tools : List String) (exec : ToolCall → String)
    (gov : GovState) (tc : ToolCall) (h : tools.contains tc.name = true) :
    (processToolCall tools exec gov tc).2 =
      (if TOOL_LOOP_BLOCK_THRESHOLD ≤
          gov.toolCallCounts (tool_call_hash tc.name tc.argsKey) + 1 then
        ⟨blockIdenticalMsg tc.name
          (gov.toolCallCounts (tool_call_hash tc.name tc.argsKey) + 1), false, true⟩
      else if nameBlockThreshold tc.name ≤ gov.toolNameCounts tc.name + 1 then
        ⟨blockNameMsg tc.name (gov.toolNameCounts tc.name + 1), false, true⟩
      else
        ⟨(if TOOL_LOOP_WARN_THRESHOLD ≤
            gov.toolCallCounts (tool_call_hash tc.name tc.argsKey) + 1 then
            exec tc ++ warnIdenticalMsg tc.name
              (gov.toolCallCounts (tool_call_hash tc.name tc.argsKey) + 1)
          else if nameWarnThreshold tc.name ≤ gov.toolNameCounts tc.name + 1 then
            exec tc ++ warnNameMsg tc.name (gov.toolNameCounts tc.name + 1)
          else exec tc), true, false⟩) := by
  unfold processToolCall
  rw [if_neg (not_not_intro h)]
  simp only [bumpCount, eq_self_iff_true, if_true]
  split
  · rfl
  · split <;> rfl

theorem runGov_cons (tools : List String) (exec : ToolCall → String)
    (gov : GovState) (tc : ToolCall) (rest : List ToolCall) :
    runGov tools exec gov (tc :: rest) =
      runGov tools exec (processToolCall tools exec gov tc).1 rest := rfl

theorem runGov_toolCallCounts (tools : List String) (exec : ToolCall → String)
    (k : String) :
    ∀ (calls : List ToolCall) (gov : GovState),
      (runGov tools exec gov calls).toolCallCounts k =
        gov.toolCallCounts k +
        (calls.filter
          (fun c => tools.contains c.name ∧ tool_call_hash c.name c.argsKey = k)).length := by
  intro calls
  induction calls with
  | nil => intro gov; simp [runGov]
  | cons tc rest ih =>
    intro gov
    rw [runGov_cons, ih, processToolCall_fst, List.filter_cons]
    by_cases hc : tools.contains tc.name = true
    · rw [if_pos hc]
      by_cases hk : tool_call_hash tc.name tc.argsKey = k
      · rw [if_pos (by simp only [decide_eq_true_eq]; exact ⟨hc, hk⟩)]
        have hb : bumpCount gov.toolCallCounts (tool_call_hash tc.name tc.argsKey) k =
            gov.toolCallCounts k + 1 := by
          unfold bumpCount
          rw [if_pos hk.symm, hk]
        dsimp only
        rw [hb, List.length_cons]
        omega
      · rw [if_neg (by simp only [decide_eq_true_eq]; exact fun hcon => hk hcon.2)]
        have hb : bumpCount gov.toolCallCounts (tool_call_hash tc.name tc.argsKey) k =
            gov.toolCallCounts k := by
          unfold bumpCount
          rw [if_neg (fun he => hk he.symm)]
        dsimp only
        rw [hb]
    · rw [if_neg hc, if_neg (by simp only [decide_eq_true_eq]; exact fun hcon => hc hcon.1)]

theorem runGov_toolNameCounts (tools : List String) (exec : ToolCall → String)
    (n : String) :
    ∀ (calls : List ToolCall) (gov : GovState),
      (runGov tools exec gov calls).toolNameCounts n =
        gov.toolNameCounts n +
        (calls.filter (fun c => tools.contains c.name ∧ c.name = n)).length := by
  intro calls
  induction calls with
  | nil => intro gov; simp [runGov]
  | cons tc rest ih =>
    intro gov
    rw [runGov_cons, ih, processToolCall_fst, List.filter_cons]
    by_cases hc : tools.contains tc.name = true
    · rw [if_pos hc]
      by_cases hk : tc.name = n
      · rw [if_pos (by simp only [decide_eq_true_eq]; exact ⟨hc, hk⟩)]
        have hb : bumpCount gov.toolNameCounts tc.name n = gov.toolNameCounts n + 1 := by
          unfold bumpCount
          rw [if_pos hk.symm, hk]
        dsimp only
        rw [hb, List.length_cons]
        omega
      · rw [if_neg (by simp only [decide_eq_true_eq]; exact fun hcon => hk hcon.2)]
        have hb : bumpCount gov.toolNameCounts tc.name n = gov.toolNameCounts n := by
          unfold bumpCount
          rw [if_neg (fun he => hk he.symm)]
        dsimp only
        rw [hb]
    · rw [if_neg hc, if_neg (by simp only [decide_eq_true_eq]; exact fun hcon => hc hcon.1)]

theorem runOutcomes_getD (tools : List String) (exec : ToolCall → String) :
    ∀ (calls : List ToolCall) (gov : GovState) (i : Nat), i < calls.length →
      (runOutcomes tools exec gov calls).getD i default =
        (processToolCall tools exec (runGov tools exec gov (calls.take i))
          (calls.getD i default)).2 := by
  intro calls
  induction calls with
  | nil => intro gov i hi; simp at hi
  | cons tc rest ih =>
    intro gov i hi
    cases i with
    | zero => simp [runOutcomes, runGov]
    | succ j =>
      simp only [runOutcomes, List.getD_cons_succ, List.take_succ_cons, runGov_cons]
      exact ih _ j (by simpa using hi)

/-- Master characterization of one `_tool_node` outcome at position `i` of
a batch of calls to registered tools: the decision reads exactly the
identical-args count and the per-name count over the first `i+1` calls. -/
theorem outcome_characterization (tools : List String) (exec : ToolCall → String)
    (calls : List ToolCall) (i : Nat) (hi : i < calls.length)
    (hknown : ∀ c ∈ calls, tools.contains c.name = true) :
    (runOutcomes tools exec initGov calls).getD i default =
      (if TOOL_LOOP_BLOCK_THRESHOLD ≤ identCount calls i then
        ⟨blockIdenticalMsg (calls.getD i default).name (identCount calls i), false, true⟩
      else if nameBlockThreshold (calls.getD i default).name ≤ nameCountAt calls i then
        ⟨blockNameMsg (calls.getD i default).name (nameCountAt calls i), false, true⟩
      else
        ⟨(if TOOL_LOOP_WARN_THRESHOLD ≤ identCount calls i then
            exec (calls.getD i default) ++
              warnIdenticalMsg (calls.getD i default).name (identCount calls i)
          else if nameWarnThreshold (calls.getD i default).name ≤ nameCountAt calls i then
            exec (calls.getD i default) ++
              warnNameMsg (calls.getD i default).name (nameCountAt calls i)
          else exec (calls.getD i default)), true, false⟩) := by
  have hmem : calls.getD i default ∈ calls := by
    rw [List.getD_eq_getElem _ _ hi]
    exact List.getElem_mem hi
  have hcontains := hknown _ hmem
  rw [runOutcomes_getD tools exec calls initGov i hi]
  have htake1 : calls.take (i + 1) = calls.take i ++ [calls.getD i default] := by
    rw [List.take_succ]
    congr 1
    rw [List.getD_eq_getElem _ _ hi, List.getElem?_eq_getElem hi]
    rfl
  have hcount :
      (runGov tools exec initGov (calls.take i)).toolCallCounts
        (tool_call_hash (calls.getD i default).name (calls.getD i default).argsKey) + 1 =
      identCount calls i := by
    rw [runGov_toolCallCounts]
    have hfc : (calls.take i).filter
        (fun c => tools.contains c.name ∧ tool_call_hash c.name c.argsKey =
          tool_call_hash (calls.getD i default).name (calls.getD i default).argsKey) =
        (calls.take i).filter
        (fun c => tool_call_hash c.name c.argsKey =
          tool_call_hash (calls.getD i default).name (calls.getD i default).argsKey) := by
      apply List.filter_congr
      intro c hc
      have hA := hknown c (List.take_subset i calls hc)
      simp only [decide_eq_decide]
      exact ⟨fun h => h.2, fun h => ⟨hA, h⟩⟩
    rw [hfc]
    unfold identCount
    rw [htake1, List.filter_append]
    simp [initGov]
  have hname :
      (runGov tools exec initGov (calls.take i)).toolNameCounts
        (calls.getD i default).name + 1 = nameCountAt calls i := by
    rw [runGov_toolNameCounts]
    have hfc : (calls.take i).filter
        (fun c => tools.contains c.name ∧ c.name = (calls.getD i default).name) =
        (calls.take i).filter (fun c => c.name = (calls.getD i default).name) := by
      apply List.filter_congr
      intro c hc
      have hA := hknown c (List.take_subset i calls hc)
      simp only [decide_eq_decide]
      exact ⟨fun h => h.2, fun h => ⟨hA, h⟩⟩
    rw [hfc]
    unfold nameCountAt
    rw [htake1, List.filter_append]
    simp [initGov]
  rw [processToolCall_snd tools exec _ _ hcontains, hcount, hname]

/-! ### C1 -/

/-- C1 counterexample: with six varied-argument calls to `search` followed
by three identical calls, the ninth call is the third with its argument
hash (so `3 ≤ k < 5` and the claim requires execution with a warning
suffix), yet the per-name frequency governor blocks it and the tool is not
executed. -/
theorem c1_counterexample :
    identCount c1Calls 8 = 3 ∧
    (3 : Nat) < 5 ∧
    ((runOutcomes ["search"] (fun _ => "ok") initGov c1Calls).getD 8 default).executed
      = false ∧
    ((runOutcomes ["search"] (fun _ => "ok") initGov c1Calls).getD 8 default).blocked
      = true := by
  decide

/-- C1 (amended): for registered tools with identical-call warn threshold 3
and block threshold 5, the k-th call with a repeated (name, canonical args)
hash is blocked with only the identical-args block message whenever k ≥ 5;
and whenever 3 ≤ k < 5 it is actually executed with the identical-args
warning suffix appended to the genuine observation — provided the tool's
per-name call count has not reached its per-name block threshold, which is
checked next and can otherwise block the call. -/
theorem c1_warn_then_block (tools : List String) (exec : ToolCall → String)
    (calls : List ToolCall) (i : Nat) (hi : i < calls.length)
    (hknown : ∀ c ∈ calls, tools.contains c.name = true) :
    (5 ≤ identCount calls i →
      (runOutcomes tools exec initGov calls).getD i default =
        ⟨blockIdenticalMsg (calls.getD i default).name (identCount calls i), false, true⟩)
    ∧ (3 ≤ identCount calls i → identCount calls i < 5 →
      nameCountAt calls i < nameBlockThreshold (calls.getD i default).name →
      (runOutcomes tools exec initGov calls).getD i default =
        ⟨exec (calls.getD i default) ++
          warnIdenticalMsg (calls.getD i default).name (identCount calls i), true, false⟩) := by
  rw [outcome_characterization tools exec calls i hi hknown]
  simp only [TOOL_LOOP_BLOCK_THRESHOLD, TOOL_LOOP_WARN_THRESHOLD]
  constructor
  · intro h5
    rw [if_pos h5]
  · intro h3 h5 hnb
    rw [if_neg (Nat.not_le.mpr h5), if_neg (Nat.not_le.mpr hnb), if_pos h3]

/-- C1 witness: four identical `search` calls — the third and fourth are
executed with the warning suffix; a fifth identical call is blocked. -/
theorem c1_warn_then_block_witness :
    ((runOutcomes ["search"] (fun _ => "result")  initGov
      (List.replicate 5 (⟨"search", "K", "i"⟩ : ToolCall))).getD 2 default =
        ⟨"result" ++ warnIdenticalMsg "search" 3, true, false⟩)
    ∧ ((runOutcomes ["search"] (fun _ => "result") initGov
      (List.replicate 5 (⟨"search", "K", "i"⟩ : ToolCall))).getD 4 default =
        ⟨blockIdenticalMsg "search" 5, false, true⟩) := by
  constructor
  · exact (c1_warn_then_block ["search"] (fun _ => "result")
      (List.replicate 5 (⟨"search", "K", "i"⟩ : ToolCall)) 2 (by decide)
      (by decide)).2 (by decide) (by decide) (by decide)
  · exact (c1_warn_then_block ["search"] (fun _ => "result")
      (List.replicate 5 (⟨"search", "K", "i"⟩ : ToolCall)) 4 (by decide)
      (by decide)).1 (by decide)

/-! ### C2 -/

/-- C2: calling one registered tool name with varying arguments, no single
argument hash reaching the identical-call block threshold, blocks every
call from the per-name block threshold onward (default 7, override 20 for
`browser`) with the per-name block message and no execution; and the
identical-call block threshold is checked first: any call whose
identical-args count reaches 5 yields the identical-args block message
regardless of the per-name count. -/
theorem c2_per_name_blocking (tools : List String) (exec : ToolCall → String)
    (n : String) (calls : List ToolCall) (i : Nat) (hi : i < calls.length)
    (hname : ∀ c ∈ calls, c.name = n)
    (hknown : tools.contains n = true)
    (hident : ∀ j, j < calls.length → identCount calls j < TOOL_LOOP_BLOCK_THRESHOLD)
    (hthr : nameBlockThreshold n ≤ i + 1) :
    ((runOutcomes tools exec initGov calls).getD i default =
      ⟨blockNameMsg n (i + 1), false, true⟩)
    ∧ nameBlockThreshold "browser" = 20
    ∧ (∀ m, m ≠ "browser" → nameBlockThreshold m = 7)
    ∧ (∀ (gov : GovState) (tc : ToolCall), tools.contains tc.name = true →
        5 ≤ gov.toolCallCounts (tool_call_hash tc.name tc.argsKey) + 1 →
        (processToolCall tools exec gov tc).2 =
          ⟨blockIdenticalMsg tc.name
            (gov.toolCallCounts (tool_call_hash tc.name tc.argsKey) + 1), false, true⟩) := by
  have hmem : calls.getD i default ∈ calls := by
    rw [List.getD_eq_getElem _ _ hi]
    exact List.getElem_mem hi
  have hni : (calls.getD i default).name = n := hname _ hmem
  have hknown' : ∀ c ∈ calls, tools.contains c.name = true := by
    intro c hc
    rw [hname c hc]
    exact hknown
  have hcnt : nameCountAt calls i = i + 1 := by
    unfold nameCountAt
    have : (calls.take (i + 1)).filter
        (fun d => d.name = (calls.getD i default).name) = calls.take (i + 1) := by
      apply List.filter_eq_self.mpr
      intro c hc
      simp only [decide_eq_true_eq]
      rw [hname c (List.take_subset _ calls hc), hni]
    rw [this, List.length_take]
    omega
  refine ⟨?_, by decide, ?_, ?_⟩
  · rw [outcome_characterization tools exec calls i hi hknown']
    rw [if_neg (Nat.not_le.mpr (hident i hi)), hcnt, hni, if_pos hthr]
  · intro m hm
    have hb : (m == "browser") = false := beq_eq_false_iff_ne.mpr hm
    simp [nameBlockThreshold, TOOL_NAME_BLOCK_OVERRIDES, List.lookup, hb,
      TOOL_NAME_BLOCK_THRESHOLD]
  · intro gov tc hct h5
    rw [processToolCall_snd tools exec gov tc hct,
      if_pos (by simpa [TOOL_LOOP_BLOCK_THRESHOLD] using h5)]

/-- C2 witness: seven varied-argument calls to one tool — the seventh hits
the default per-name block threshold and is blocked. -/
theorem c2_per_name_blocking_witness :
    (runOutcomes ["search"] (fun _ => "ok") initGov
      ((List.range 7).map (fun j => ⟨"search", toString j, "i"⟩ : Nat → ToolCall))).getD 6 default
      = ⟨blockNameMsg "search" 7, false, true⟩ := by
  exact (c2_per_name_blocking ["search"] (fun _ => "ok") "search"
    ((List.range 7).map (fun j => ⟨"search", toString j, "i"⟩ : Nat → ToolCall)) 6
    (by decide) (by decide) (by decide) (by decide) (by decide)).1

/-! ### C4 helper lemmas -/

theorem string_data_nil (s : String) (h : s.data = []) : s = "" := by
  cases s with
  | mk d =>
    simp only at h
    subst h
    rfl

theorem str_append_ne_right (s t : String) (h : t ≠ "") : s ++ t ≠ "" := by
  intro he
  apply h
  have hd := congrArg String.data he
  rw [String.data_append] at hd
  exact string_data_nil t (List.append_eq_nil.mp hd).2

theorem str_append_ne_left (s t : String) (h : s ≠ "") : s ++ t ≠ "" := by
  intro he
  apply h
  have hd := congrArg String.data he
  rw [String.data_append] at hd
  exact string_data_nil s (List.append_eq_nil.mp hd).1

theorem blockIdenticalMsg_ne (n : String) (c : Nat) : blockIdenticalMsg n c ≠ "" := by
  unfold blockIdenticalMsg
  apply str_append_ne_right
  decide

theorem blockNameMsg_ne (n : String) (c : Nat) : blockNameMsg n c ≠ "" := by
  unfold blockNameMsg
  apply str_append_ne_right
  decide

theorem warnIdenticalMsg_ne (n : String) (c : Nat) : warnIdenticalMsg n c ≠ "" := by
  unfold warnIdenticalMsg
  apply str_append_ne_right
  decide

theorem warnNameMsg_ne (n : String) (c : Nat) : warnNameMsg n c ≠ "" := by
  unfold warnNameMsg
  apply str_append_ne_right
  decide

theorem truncate_observation_ne (m : Nat) (s : String) (h : s ≠ "") :
    truncate_observation m s ≠ "" := by
  unfold truncate_observation
  split
  · exact h
  · apply str_append_ne_right
    decide

/-- Every observation `_tool_node` produces is nonempty when the tool
oracle returns nonempty strings. -/
theorem processToolCall_obs_ne (tools : List String) (exec : ToolCall → String)
    (gov : GovState) (tc : ToolCall) (hexec : exec tc ≠ "") :
    (processToolCall tools exec gov tc).2.observation ≠ "" := by
  unfold processToolCall
  by_cases h : tools.contains tc.name = true
  · rw [if_neg (not_not_intro h)]
    dsimp only
    split
    · exact blockIdenticalMsg_ne _ _
    · split
      · exact blockNameMsg_ne _ _
      · dsimp only
        split
        · exact str_append_ne_right _ _ (warnIdenticalMsg_ne _ _)
        · split
          · exact str_append_ne_right _ _ (warnNameMsg_ne _ _)
          · exact hexec
  · rw [if_pos h]
    exact str_append_ne_left _ _ (by decide)

/-- Every message a `_tool_node` batch appends is a tool message with
nonempty content. -/
theorem toolNodeBatch_all (tools : List String) (exec : ToolCall → String)
    (hexec : ∀ tc, exec tc ≠ "") :
    ∀ (calls : List ToolCall) (gov : GovState) (m : Msg),
      m ∈ (toolNodeBatch tools exec gov calls).2 →
      ∃ c id, m = Msg.tool c id ∧ c ≠ "" := by
  intro calls
  induction calls with
  | nil => intro gov m hm; simp [toolNodeBatch] at hm
  | cons tc rest ih =>
    intro gov m hm
    simp only [toolNodeBatch, List.mem_cons] at hm
    rcases hm with hm | hm
    · exact ⟨_, _, hm, truncate_observation_ne _ _
        (processToolCall_obs_ne tools exec gov tc (hexec tc))⟩
    · exact ih _ m hm

theorem toolNodeBatch_ne_nil (tools : List String) (exec : ToolCall → String)
    (gov : GovState) (calls : List ToolCall) (h : calls ≠ []) :
    (toolNodeBatch tools exec gov calls).2 ≠ [] := by
  cases calls with
  | nil => exact absurd rfl h
  | cons tc rest => simp [toolNodeBatch]

/-- If the model always requests tool calls, the loop always exhausts its
limit, erroring with a superset of the accumulated messages. -/
theorem runLoop_error (basePrompt : String) (llm : List Msg → Msg)
    (tools : List String) (exec : ToolCall → String) (maxRounds : Nat)
    (hllm : ∀ msgs, toolCallsOf (llm msgs) ≠ []) :
    ∀ (fuel : Nat) (node : Node) (gov : GovState) (msgs : List Msg),
      ∃ out, runLoop basePrompt llm tools exec maxRounds fuel node gov msgs = .error out
        ∧ ∀ m ∈ msgs, m ∈ out := by
  intro fuel
  induction fuel with
  | zero =>
    intro node gov msgs
    exact ⟨msgs, rfl, fun m hm => hm⟩
  | succ f ih =>
    intro node gov msgs
    cases node with
    | llmCall =>
      obtain ⟨out, heq, hsub⟩ := ih .toolNode gov
        (msgs ++ [llm (Msg.system (llmSystemContent basePrompt maxRounds msgs) :: msgs)])
      refine ⟨out, ?_, fun m hm => hsub m (List.mem_append_left _ hm)⟩
      simp only [runLoop]
      rw [if_neg (hllm _)]
      exact heq
    | toolNode =>
      obtain ⟨out, heq, hsub⟩ := ih .llmCall
        (toolNodeBatch tools exec gov (toolCallsOf (msgs.getLastD default))).1
        (msgs ++ (toolNodeBatch tools exec gov (toolCallsOf (msgs.getLastD default))).2)
      refine ⟨out, ?_, fun m hm => hsub m (List.mem_append_left _ hm)⟩
      simp only [runLoop]
      exact heq

/-- Two initial steps of the loop: one LLM call that requests tools, one
tool batch. -/
theorem runLoop_two_steps (basePrompt : String) (llm : List Msg → Msg)
    (tools : List String) (exec : ToolCall → String) (maxRounds f : Nat)
    (gov : GovState) (msgs : List Msg)
    (h : toolCallsOf (llm (Msg.system (llmSystemContent basePrompt maxRounds msgs) :: msgs)) ≠ []) :
    runLoop basePrompt llm tools exec maxRounds (f + 2) .llmCall gov msgs =
      runLoop basePrompt llm tools exec maxRounds f .llmCall
        (toolNodeBatch tools exec gov
          (toolCallsOf (llm (Msg.system (llmSystemContent basePrompt maxRounds msgs) :: msgs)))).1
        ((msgs ++ [llm (Msg.system (llmSystemContent basePrompt maxRounds msgs) :: msgs)]) ++
          (toolNodeBatch tools exec gov
            (toolCallsOf (llm (Msg.system (llmSystemContent basePrompt maxRounds msgs) :: msgs)))).2) := by
  show runLoop basePrompt llm tools exec maxRounds (f + 1 + 1) .llmCall gov msgs = _
  simp only [runLoop]
  rw [if_neg h, List.getLastD_concat]

theorem subAt_self_append : ∀ (x y : List Char), subAt x (x ++ y) = true := by
  intro x
  induction x with
  | nil => intro y; rfl
  | cons a as ih => intro y; simp [subAt, ih]

theorem hasSub_append_self (x y : List Char) : hasSub (x ++ y) x = true := by
  cases x with
  | nil =>
    cases y with
    | nil => rfl
    | cons h t => simp [hasSub, subAt]
  | cons a as =>
    have h := subAt_self_append (a :: as) y
    simp only [List.cons_append] at h
    simp [hasSub, h]

/-- A string contains any of its prefixes. -/
theorem strContains_prefix (p s : String) : strContains (p ++ s) p = true := by
  unfold strContains
  have hd : (p ++ s).toList = p.toList ++ s.toList := String.data_append p s
  rw [hd]
  exact hasSub_append_self _ _

/-! ### C4 -/

/-- C4: the hard step ceiling is `2 + 2·max_rounds`; when every assistant
reply carries tool calls (and tools yield nonempty observations), the loop
exhausts the ceiling, `run_agent` catches the recursion error rather than
raising, and returns the fallback summary built by handing the accumulated
tool-result bodies (each capped to a 3000-character preview) to one
additional best-effort LLM call, prefixed with the explicit
hit-tool-call-limit marker. -/
theorem c4_ceiling_fallback (basePrompt : String) (llm summarize : List Msg → Msg)
    (tools : List String) (exec : ToolCall → String) (query effort : String)
    (hllm : ∀ msgs, toolCallsOf (llm msgs) ≠ [])
    (hexec : ∀ tc, exec tc ≠ "") :
    recursion_limit (effortRounds
        (if effort = "normal" ∧ is_deep_research query = true then "deep" else effort))
      = 2 + 2 * effortRounds
        (if effort = "normal" ∧ is_deep_research query = true then "deep" else effort)
    ∧ (∃ out,
        runLoop basePrompt llm tools exec
          (effortRounds
            (if effort = "normal" ∧ is_deep_research query = true then "deep" else effort))
          (recursion_limit (effortRounds
            (if effort = "normal" ∧ is_deep_research query = true then "deep" else effort)))
          .llmCall initGov [Msg.human query] = .error out
        ∧ run_agent basePrompt llm summarize tools exec query effort
            = fallback_summary summarize query out
        ∧ strContains (run_agent basePrompt llm summarize tools exec query effort)
            "⚠️ Hit tool-call limit; here\x27s a summary of what was found:\n\n" = true) := by
  refine ⟨by unfold recursion_limit; omega, ?_⟩
  set effort' := if effort = "normal" ∧ is_deep_research query = true then "deep" else effort
    with heff
  set R := effortRounds effort' with hR
  -- the first two steps execute one tool batch
  have hlim : recursion_limit R = R * 2 + 2 := by unfold recursion_limit; omega
  set msgs0 : List Msg := [Msg.human query] with hmsgs0
  set reply1 := llm (Msg.system (llmSystemContent basePrompt R msgs0) :: msgs0) with hreply
  set batch := toolNodeBatch tools exec initGov (toolCallsOf reply1) with hbatch
  have hstep := runLoop_two_steps basePrompt llm tools exec R (R * 2) initGov msgs0
    (hllm _)
  obtain ⟨out, heq, hsub⟩ := runLoop_error basePrompt llm tools exec R hllm
    (R * 2) .llmCall batch.1 ((msgs0 ++ [reply1]) ++ batch.2)
  have hloop : runLoop basePrompt llm tools exec R (recursion_limit R)
      .llmCall initGov msgs0 = .error out := by
    rw [hlim, hstep, heq]
  -- a nonempty tool message reaches the accumulated output
  have hbne : batch.2 ≠ [] :=
    toolNodeBatch_ne_nil tools exec initGov (toolCallsOf reply1) (hllm _)
  obtain ⟨m0, hm0⟩ := List.exists_mem_of_ne_nil batch.2 hbne
  obtain ⟨c0, id0, hm0eq, hc0⟩ :=
    toolNodeBatch_all tools exec hexec (toolCallsOf reply1) initGov m0 hm0
  have hm0out : m0 ∈ out := hsub m0 (List.mem_append_right _ hm0)
  -- the run returns the fallback summary over the accumulated output
  have hagent : run_agent basePrompt llm summarize tools exec query effort
      = fallback_summary summarize query out := by
    unfold run_agent
    rw [← heff, ← hR, ← hmsgs0, hloop]

  refine ⟨out, hloop, hagent, ?_⟩
  -- the tool contents are nonempty, so the marker prefix is emitted
  have htc : out.filterMap (fun m =>
      match m with
      | .tool c _ => if c = "" then none else some (c.take 3000)
      | _ => none) ≠ [] := by
    apply List.ne_nil_of_mem (a := c0.take 3000)
    apply List.mem_filterMap.mpr
    exact ⟨m0, hm0out, by rw [hm0eq]; simp [hc0]⟩
  rw [hagent]
  unfold fallback_summary
  rw [if_neg htc]
  exact strContains_prefix _ _

/-- C4 witness: a model that always requests one `search` call, on the
quick tier. -/
theorem c4_ceiling_fallback_witness :
    strContains
      (run_agent "base" (fun _ => Msg.ai "x" [⟨"search", "{}", "id"⟩])
        (fun _ => Msg.ai "summary text" []) ["search"] (fun _ => "found") "q" "quick")
      "⚠️ Hit tool-call limit; here\x27s a summary of what was found:\n\n" = true := by
  obtain ⟨-, out, -, -, hmark⟩ := c4_ceiling_fallback "base"
    (fun _ => Msg.ai "x" [⟨"search", "{}", "id"⟩]) (fun _ => Msg.ai "summary text" [])
    ["search"] (fun _ => "found") "q" "quick"
    (fun _ => show toolCallsOf (Msg.ai "x" [⟨"search", "{}", "id"⟩]) ≠ [] by decide)
    (fun _ => show ("found" : String) ≠ "" by decide)
  exact hmark

/-! ### C9 helper lemmas -/

theorem getAskCount_set_self : ∀ (l : List (Nat × Nat)) (k v : Nat),
    getAskCount (setAskCount l k v) k = v := by
  intro l
  induction l with
  | nil => intro k v; simp [setAskCount, getAskCount, List.lookup]
  | cons p rest ih =>
    intro k v
    obtain ⟨a, b⟩ := p
    by_cases h : a = k
    · subst h
      simp [setAskCount, getAskCount, List.lookup]
    · have hb : (k == a) = false := beq_eq_false_iff_ne.mpr (fun he => h he.symm)
      simp [setAskCount, h, getAskCount, List.lookup, hb]
      exact ih k v

theorem getAskCount_set_other : ∀ (l : List (Nat × Nat)) (k v t : Nat), t ≠ k →
    getAskCount (setAskCount l k v) t = getAskCount l t := by
  intro l
  induction l with
  | nil =>
    intro k v t ht
    have hb : (t == k) = false := beq_eq_false_iff_ne.mpr ht
    simp [setAskCount, getAskCount, List.lookup, hb]
  | cons p rest ih =>
    intro k v t ht
    obtain ⟨a, b⟩ := p
    by_cases h : a = k
    · subst h
      have hb : (t == a) = false := beq_eq_false_iff_ne.mpr ht
      simp [setAskCount, getAskCount, List.lookup, hb]
    · by_cases h2 : t = a
      · subst h2
        simp [setAskCount, h, getAskCount, List.lookup]
      · have hb : (t == a) = false := beq_eq_false_iff_ne.mpr h2
        simp [setAskCount, h, getAskCount, List.lookup, hb]
        exact ih k v t ht

theorem incrementAskCount_self (l : List (Nat × Nat)) (t : Nat) :
    getAskCount (incrementAskCount l t) t = getAskCount l t + 1 := by
  unfold incrementAskCount
  exact getAskCount_set_self l t _

theorem incrementAskCount_other (l : List (Nat × Nat)) (t u : Nat) (h : u ≠ t) :
    getAskCount (incrementAskCount l t) u = getAskCount l u := by
  unfold incrementAskCount
  exact getAskCount_set_other l t _ u h

/-- Effects of one gated ask on the counter table, the sent-question log
and the eviction flag. -/
theorem askHumanGated_effects (w : GWorld) (chat : Nat) (q : String)
    (taskId : Option Nat) (hu au : Option Nat) (ev : EvalOutcome) :
    ((capCheck (cleanup_ask_count w.askCounts) taskId = true ∨
        (should_ask_user ev).1 = false) →
      (askHumanGated w true chat q taskId hu au ev []).1.askCounts
          = cleanup_ask_count w.askCounts
      ∧ (askHumanGated w true chat q taskId hu au ev []).1.sentQuestions
          = w.sentQuestions)
    ∧ (capCheck (cleanup_ask_count w.askCounts) taskId = false →
       (should_ask_user ev).1 = true →
      (askHumanGated w true chat q taskId hu au ev []).1.askCounts =
        (match taskId with
         | some t => incrementAskCount (cleanup_ask_count w.askCounts) t
         | none => cleanup_ask_count w.askCounts)
      ∧ (askHumanGated w true chat q taskId hu au ev []).1.sentQuestions
          = (taskId, q) :: w.sentQuestions)
    ∧ (askHumanGated w true chat q taskId hu au ev []).1.evictionOccurred
        = (w.evictionOccurred || decide (MAX_ASK_COUNT_ENTRIES < w.askCounts.length)) := by
  refine ⟨?_, ?_, ?_⟩
  · rintro (hcap | hgate)
    · constructor <;> simp [askHumanGated, hcap]
    · constructor <;>
        (by_cases hcap : capCheck (cleanup_ask_count w.askCounts) taskId = true <;>
          simp [askHumanGated, hcap, hgate])
  · intro hcap hgate
    cases taskId with
    | none =>
      constructor <;>
        (simp [askHumanGated, hcap, hgate]; split <;> rfl)
    | some t =>
      by_cases ht : t = 0
      · subst ht
        constructor <;> (simp [askHumanGated, hcap, hgate]; split <;> rfl)
      · constructor <;> (simp [askHumanGated, hcap, hgate, ht]; split <;> rfl)
  · by_cases hcap : capCheck (cleanup_ask_count w.askCounts) taskId = true
    · simp [askHumanGated, hcap]
    · by_cases hgate : (should_ask_user ev).1 = false
      · simp [askHumanGated, hcap, hgate]
      · cases taskId with
        | none =>
          simp [askHumanGated, hcap, hgate]
          split <;> rfl
        | some t =>
          by_cases ht : t = 0
          · subst ht
            simp [askHumanGated, hcap, hgate]
            split <;> rfl
          · simp [askHumanGated, hcap, hgate, ht]
            split <;> rfl

/-- The per-trace invariant: with no eviction, every per-task count stays
at most the cap and equals the number of questions sent for that task. -/
theorem c9_step (w : GWorld) (e : AskEvent)
    (hlen : ¬ MAX_ASK_COUNT_ENTRIES < w.askCounts.length)
    (hInv : ∀ t, getAskCount w.askCounts t ≤ MAX_ASKS_PER_TASK ∧
      (w.sentQuestions.filter (fun p => p.1 = some t)).length = getAskCount w.askCounts t) :
    ∀ t, getAskCount (askHumanGated w true e.chat e.question e.taskId none none
        e.ev []).1.askCounts t ≤ MAX_ASKS_PER_TASK ∧
      ((askHumanGated w true e.chat e.question e.taskId none none
        e.ev []).1.sentQuestions.filter (fun p => p.1 = some t)).length =
      getAskCount (askHumanGated w true e.chat e.question e.taskId none none
        e.ev []).1.askCounts t := by
  have hclean : cleanup_ask_count w.askCounts = w.askCounts := by
    unfold cleanup_ask_count
    rw [if_neg hlen]
  have heff := askHumanGated_effects w e.chat e.question e.taskId none none e.ev
  by_cases hcap : capCheck (cleanup_ask_count w.askCounts) e.taskId = true
  · obtain ⟨hc, hs⟩ := heff.1 (Or.inl hcap)
    intro t
    rw [hc, hs, hclean]
    exact hInv t
  · by_cases hgate : (should_ask_user e.ev).1 = false
    · obtain ⟨hc, hs⟩ := heff.1 (Or.inr hgate)
      intro t
      rw [hc, hs, hclean]
      exact hInv t
    · obtain ⟨hc, hs⟩ := heff.2.1 (Bool.not_eq_true _ ▸ hcap)
        (Bool.not_eq_false _ ▸ hgate)
      intro t
      rw [hc, hs, List.filter_cons]
      cases htid : e.taskId with
      | none =>
        simp only [htid] at *
        rw [hclean]
        have hd : (decide ((none : Option Nat) = some t)) = false := by simp
        rw [hd, if_neg (by simp)]
        exact ⟨(hInv t).1, (hInv t).2⟩
      | some t0 =>
        simp only [htid] at *
        rw [hclean]
        have hlt : getAskCount w.askCounts t0 < MAX_ASKS_PER_TASK := by
          rw [capCheck, hclean] at hcap
          simpa using Nat.not_le.mp (by simpa using hcap)
        by_cases ht : t = t0
        · subst ht
          rw [incrementAskCount_self]
          rw [if_pos (by simp), List.length_cons, (hInv t).2]
          exact ⟨by omega, rfl⟩
        · rw [incrementAskCount_other _ _ _ ht]
          rw [if_neg (by simp [Ne.symm ht])]
          exact ⟨(hInv t).1, (hInv t).2⟩

theorem runAsks_cons (w : GWorld) (e : AskEvent) (rest : List AskEvent) :
    runAsks w (e :: rest) =
      runAsks (askHumanGated w true e.chat e.question e.taskId none none e.ev []).1 rest :=
  rfl

theorem c9_flag_mono (evs : List AskEvent) : ∀ (w : GWorld),
    w.evictionOccurred = true → (runAsks w evs).evictionOccurred = true := by
  induction evs with
  | nil => intro w h; exact h
  | cons e rest ih =>
    intro w h
    rw [runAsks_cons]
    apply ih
    rw [(askHumanGated_effects w e.chat e.question e.taskId none none e.ev).2.2, h]
    rfl

theorem c9_trace_inv (evs : List AskEvent) : ∀ (w : GWorld),
    (∀ t, getAskCount w.askCounts t ≤ MAX_ASKS_PER_TASK ∧
      (w.sentQuestions.filter (fun p => p.1 = some t)).length = getAskCount w.askCounts t) →
    (runAsks w evs).evictionOccurred = false →
    ∀ t, getAskCount (runAsks w evs).askCounts t ≤ MAX_ASKS_PER_TASK ∧
      ((runAsks w evs).sentQuestions.filter (fun p => p.1 = some t)).length =
        getAskCount (runAsks w evs).askCounts t := by
  induction evs with
  | nil => intro w hInv _; exact hInv
  | cons e rest ih =>
    intro w hInv hflag
    rw [runAsks_cons] at hflag ⊢
    have hstepflag :
        (askHumanGated w true e.chat e.question e.taskId none none e.ev []).1.evictionOccurred
          = false := by
      by_contra h
      rw [c9_flag_mono rest _ (Bool.not_eq_false _ ▸ h)] at hflag
      cases hflag
    have hlen : ¬ MAX_ASK_COUNT_ENTRIES < w.askCounts.length := by
      intro hl
      rw [(askHumanGated_effects w e.chat e.question e.taskId none none e.ev).2.2] at hstepflag
      simp [hl] at hstepflag
    exact ih _ (c9_step w e hlen hInv) hflag

theorem runAsks_nil (w : GWorld) : runAsks w [] = w := rfl

theorem runAsks_append (w : GWorld) (l1 l2 : List AskEvent) :
    runAsks w (l1 ++ l2) = runAsks (runAsks w l1) l2 := by
  unfold runAsks
  rw [List.foldl_append]

theorem lookup_eq_none_of_keys (l : List (Nat × Nat)) (k : Nat)
    (h : ∀ p ∈ l, p.1 ≠ k) : List.lookup k l = none := by
  induction l with
  | nil => rfl
  | cons p rest ih =>
    have hb : (k == p.1) = false :=
      beq_eq_false_iff_ne.mpr (fun he => (h p (by simp)) he.symm)
    simp only [List.lookup, hb]
    exact ih (fun q hq => h q (by simp [hq]))

theorem setAskCount_append (l : List (Nat × Nat)) (k v : Nat)
    (h : ∀ p ∈ l, p.1 ≠ k) : setAskCount l k v = l ++ [(k, v)] := by
  induction l with
  | nil => rfl
  | cons p rest ih =>
    obtain ⟨a, b⟩ := p
    have ha : a ≠ k := h (a, b) (by simp)
    simp only [setAskCount, ha, if_false, List.cons_append, List.cons.injEq, true_and]
    exact ih (fun q hq => h q (by simp [hq]))

theorem closedForm_keys (j : Nat) : ∀ p ∈ closedForm j, p.1 < j + 2 := by
  intro p hp
  unfold closedForm at hp
  rcases List.mem_cons.mp hp with h | h
  · subst h
    show 1 < j + 2
    omega
  · obtain ⟨i, hi, hpe⟩ := List.mem_map.mp h
    rw [← hpe]
    show i + 2 < j + 2
    have := List.mem_range.mp hi
    omega

theorem closedForm_length (j : Nat) : (closedForm j).length = j + 1 := by
  simp [closedForm]

theorem closedForm_succ (j : Nat) : closedForm j ++ [(j + 2, 1)] = closedForm (j + 1) := by
  unfold closedForm
  rw [List.range_succ, List.map_append]
  rfl

theorem getAskCount_closedForm_fresh (j t : Nat) (h : j + 2 ≤ t) :
    getAskCount (closedForm j) t = 0 := by
  unfold getAskCount
  rw [lookup_eq_none_of_keys _ _ (fun p hp => by have := closedForm_keys j p hp; omega)]
  rfl

theorem incrementAskCount_closedForm (j : Nat) :
    incrementAskCount (closedForm j) (j + 2) = closedForm (j + 1) := by
  unfold incrementAskCount
  rw [getAskCount_closedForm_fresh j (j + 2) (le_refl _), Nat.zero_add,
    setAskCount_append _ _ _ (fun p hp => by have := closedForm_keys j p hp; omega)]
  exact closedForm_succ j

theorem fillerEvents_succ (j k : Nat) :
    fillerEvents j (k + 1) = fillerEvent (j + 2) :: fillerEvents (j + 1) k := by
  unfold fillerEvents
  rw [List.range_succ_eq_map, List.map_cons, List.map_map]
  congr 1
  congr 1
  funext i
  show fillerEvent (j + (i + 1) + 2) = fillerEvent (j + 1 + i + 2)
  congr 1
  omega

/-- Running the fresh-task fillers extends the counter table without ever
evicting and without sending anything for task 1. -/
theorem fillerPhase : ∀ (k j : Nat) (w : GWorld), j + k ≤ 500 →
    w.askCounts = closedForm j →
    (runAsks w (fillerEvents j k)).askCounts = closedForm (j + k) ∧
    ((runAsks w (fillerEvents j k)).sentQuestions.filter
      (fun p => p.1 = some 1)).length =
      (w.sentQuestions.filter (fun p => p.1 = some 1)).length := by
  intro k
  induction k with
  | zero =>
    intro j w _ hc
    exact ⟨by simpa [fillerEvents, runAsks] using hc, by simp [fillerEvents, runAsks]⟩
  | succ k ih =>
    intro j w hjk hc
    rw [fillerEvents_succ, runAsks_cons]
    dsimp only [fillerEvent]
    have hlen : ¬ MAX_ASK_COUNT_ENTRIES < w.askCounts.length := by
      rw [hc, closedForm_length]
      simp only [MAX_ASK_COUNT_ENTRIES]
      omega
    have hclean : cleanup_ask_count w.askCounts = w.askCounts := by
      unfold cleanup_ask_count
      rw [if_neg hlen]
    have hcap : capCheck (cleanup_ask_count w.askCounts) (some (j + 2)) = false := by
      rw [hclean, hc]
      simp [capCheck, getAskCount_closedForm_fresh j (j + 2) (le_refl _), MAX_ASKS_PER_TASK]
    have heff := askHumanGated_effects w (j + 2) "q" (some (j + 2)) none none .noKey
    obtain ⟨hc2, hs2⟩ := heff.2.1 hcap rfl
    have hcounts' : (askHumanGated w true (j + 2) "q" (some (j + 2)) none none
        .noKey []).1.askCounts = closedForm (j + 1) := by
      rw [hc2]
      show incrementAskCount (cleanup_ask_count w.askCounts) (j + 2) = closedForm (j + 1)
      rw [hclean, hc, incrementAskCount_closedForm]
    have hrest := ih (j + 1) _ (by omega) hcounts'
    refine ⟨?_, ?_⟩
    · rw [hrest.1]
      congr 1
      omega
    · rw [hrest.2, hs2, List.filter_cons,
        if_neg (by intro hcon; simp only [decide_eq_true_eq, Option.some.injEq] at hcon; omega)]

/-! ### C9 -/

/-- C9 counterexample: task 1 reaches the cap of 2 sent questions, then 501
other tasks each ask once, growing `_ask_count` past 500 entries; the next
ask evicts the lower half of the task ids — including task 1 — so task 1's
third question passes the gate and is sent: 3 > MAX_ASKS_PER_TASK questions
are sent for task 1. -/
theorem c9_counterexample :
    MAX_ASKS_PER_TASK = 2 ∧
    ((runAsks emptyGWorld c9Trace).sentQuestions.filter
      (fun p => p.1 = some 1)).length = 3 := by
  refine ⟨rfl, ?_⟩
  have hsplit : c9Trace =
      [(⟨1, "q", some 1, .noKey⟩ : AskEvent), ⟨1, "q", some 1, .noKey⟩] ++
      (fillerEvents 0 500 ++ [⟨1, "q", some 1, .noKey⟩]) := rfl
  rw [hsplit, runAsks_append, runAsks_append]
  have hW2c : (runAsks emptyGWorld
      [(⟨1, "q", some 1, .noKey⟩ : AskEvent), ⟨1, "q", some 1, .noKey⟩]).askCounts
      = closedForm 0 := by decide
  have hW2s : ((runAsks emptyGWorld
      [(⟨1, "q", some 1, .noKey⟩ : AskEvent), ⟨1, "q", some 1, .noKey⟩]).sentQuestions.filter
      (fun p => p.1 = some 1)).length = 2 := by decide
  have hfill := fillerPhase 500 0 _ (by omega) hW2c
  rw [runAsks_cons, runAsks_nil]
  dsimp only
  have heff := askHumanGated_effects
    (runAsks (runAsks emptyGWorld
      [(⟨1, "q", some 1, .noKey⟩ : AskEvent), ⟨1, "q", some 1, .noKey⟩]) (fillerEvents 0 500))
    1 "q" (some 1) none none .noKey
  have hcap : capCheck (cleanup_ask_count
      (runAsks (runAsks emptyGWorld
        [(⟨1, "q", some 1, .noKey⟩ : AskEvent), ⟨1, "q", some 1, .noKey⟩])
        (fillerEvents 0 500)).askCounts) (some 1) = false := by
    rw [hfill.1]
    decide
  obtain ⟨-, hs⟩ := heff.2.1 hcap rfl
  rw [hs, List.filter_cons, if_pos (by decide), List.length_cons, hfill.2, hW2s]

/-- C9 (amended): as long as the counter table is never evicted (it evicts
the lower half of task ids whenever it exceeds 500 entries), at most
MAX_ASKS_PER_TASK questions are ever sent per task; and whenever a task's
(post-eviction) count has reached the cap, the gated ask returns the
question-not-sent message immediately, registering no PendingQuestion,
sending no chat message, logging no sent question and leaving the task
store untouched. -/
theorem c9_per_task_cap (evs : List AskEvent)
    (hflag : (runAsks emptyGWorld evs).evictionOccurred = false) :
    (∀ t, ((runAsks emptyGWorld evs).sentQuestions.filter
        (fun p => p.1 = some t)).length ≤ MAX_ASKS_PER_TASK)
    ∧ (∀ (w : GWorld) (chat : Nat) (q : String) (t : Nat) (hu au : Option Nat)
        (ev : EvalOutcome) (events : List ExtEvent),
        MAX_ASKS_PER_TASK ≤ getAskCount (cleanup_ask_count w.askCounts) t →
        (askHumanGated w true chat q (some t) hu au ev events).2 = capMsg
        ∧ (askHumanGated w true chat q (some t) hu au ev events).1.reg = w.reg
        ∧ (askHumanGated w true chat q (some t) hu au ev events).1.chatLog = w.chatLog
        ∧ (askHumanGated w true chat q (some t) hu au ev events).1.sentQuestions
            = w.sentQuestions
        ∧ (askHumanGated w true chat q (some t) hu au ev events).1.tasks = w.tasks) := by
  constructor
  · intro t
    have h := c9_trace_inv evs emptyGWorld (by intro t; simp [emptyGWorld, getAskCount]) hflag t
    rw [h.2]
    exact h.1
  · intro w chat q t hu au ev events hge
    have hcap : capCheck (cleanup_ask_count w.askCounts) (some t) = true := by
      simp [capCheck, hge]
    refine ⟨?_, ?_, ?_, ?_, ?_⟩ <;> simp [askHumanGated, hcap]

/-- C9 witness: a three-ask trace for one task — the first two are sent,
the third is refused at the cap. -/
theorem c9_per_task_cap_witness :
    ((runAsks emptyGWorld
        [⟨1, "a", some 1, .noKey⟩, ⟨1, "b", some 1, .noKey⟩,
         ⟨1, "c", some 1, .noKey⟩]).sentQuestions.filter
        (fun p => p.1 = some 1)).length ≤ MAX_ASKS_PER_TASK
    ∧ (askHumanGated ⟨[(1, 2)], emptyRegistry, fun _ => none, [], [], false⟩
        true 1 "d" (some 1) none none .noKey []).2 = capMsg := by
  have h := c9_per_task_cap
    [⟨1, "a", some 1, .noKey⟩, ⟨1, "b", some 1, .noKey⟩, ⟨1, "c", some 1, .noKey⟩]
    (by decide)
  exact ⟨h.1 1,
    (h.2 ⟨[(1, 2)], emptyRegistry, fun _ => none, [], [], false⟩ 1 "d" 1 none none .noKey []
      (by decide)).1⟩

end OpenShrimp
